import Mathlib

/-!
Verification development for the agent-service-toolkit repository.

The embedding covers:
* the data model (`ChatMessage`, stream units, framework events),
* the Event Translator (`message_generator` in `src/service/service.py`),
* the Transcript Client fold (`draw_messages` in `src/streamlit_app.py`),
* turn dispatch and error handling (`_handle_input`, `invoke`, `history`
  in `src/service/service.py`, `get_agent` in `src/agents/agents.py`).

Helper modules that the repository imports but whose sources are not part of
the source tree (`service/utils.py`, `schema/`, `client/client.py`) are
modelled from the spec where noted; the translation and folding logic itself
follows the source line by line.
-/

namespace AgentToolkit

/-- A tool call attached to an AI message: `{id, name, args}` (spec §3).
`args` is kept as an opaque rendered string. -/
structure ToolCall where
  id : String
  name : String
  args : String
  deriving DecidableEq

/-- Discriminant of `ChatMessage` (spec §3): `{human, ai, tool, custom}`. -/
inductive MsgType
  | human
  | ai
  | tool
  | custom
  deriving DecidableEq

/-- Modelled from the spec (§3): the `ChatMessage` wire shape defined in the
missing `schema/` package. `custom_data` is an opaque payload rendered as a
string ("" when absent). -/
structure ChatMessage where
  type : MsgType
  content : String
  tool_calls : List ToolCall := []
  tool_call_id : String := ""
  run_id : String := ""
  custom_data : String := ""
  deriving DecidableEq

/-- A langchain-side message as consumed by the translator.  The `custom`
constructor stands for the raw payload of a `custom` stream event, which the
code routes through the same per-message loop. -/
inductive LCMessage
  | human (content : String)
  | ai (content : String) (tool_calls : List ToolCall)
  | tool (content : String) (name : String) (tool_call_id : String)
  | custom (payload : String)
  deriving DecidableEq

/-- `isinstance(message, AIMessage)` on a langchain message. -/
def LCMessage.isAI : LCMessage → Bool
  | .ai _ _ => true
  | _ => false

/-- `message.content` of a langchain message (custom payloads have no such
attribute; the code never reads it there). -/
def LCMessage.contentOf : LCMessage → String
  | .human c => c
  | .ai c _ => c
  | .tool c _ _ => c
  | .custom _ => ""

/-- `message.tool_calls` (empty for non-AI messages). -/
def LCMessage.toolCallsOf : LCMessage → List ToolCall
  | .ai _ tcs => tcs
  | _ => []

/-- Modelled from the spec: `langchain_to_chat_message` from the missing
`service/utils.py` converts a framework message into the wire `ChatMessage`,
preserving the discriminant, text content, tool calls and the tool-call
correlation id; a custom payload becomes a `custom`-typed message carrying
`custom_data` (spec §3, §4.2). -/
def langchain_to_chat_message : LCMessage → ChatMessage
  | .human c => { type := MsgType.human, content := c }
  | .ai c tcs => { type := MsgType.ai, content := c, tool_calls := tcs }
  | .tool c _ id => { type := MsgType.tool, content := c, tool_call_id := id }
  | .custom d => { type := MsgType.custom, content := "", custom_data := d }

/-- The value carried by a node in an `updates` stream event: either the
`__interrupt__` pseudo-node's tuple of interrupts (each interrupt reduced to
its opaque `value`), or a state-update dict which may or may not contain a
`"messages"` key. -/
inductive NodeUpdate
  | interrupts (vals : List String)
  | state (msgs : Option (List LCMessage))
  deriving DecidableEq

/-- A token-delta event on the `messages` channel: the chunk flag
(`isinstance(msg, AIMessageChunk)`), the textual content (the missing
`remove_tool_calls`/`convert_message_content_to_string` helpers are modelled
from the spec as the identity on plain text), and `metadata.get("tags", [])`. -/
structure TokenEvent where
  isChunk : Bool
  content : String
  tags : List String
  deriving DecidableEq

/-- One event of `agent.astream(..., stream_mode=["updates", "messages",
"custom"])`.  `nontuple` models a non-tuple event, which the code skips. -/
inductive StreamEvent
  | updates (event : List (String × NodeUpdate))
  | messages (tok : TokenEvent)
  | custom (payload : String)
  | nontuple
  deriving DecidableEq

/-- The wire-level atom (spec §3): a token fragment, a whole message, or a
typed error event.  The terminal `[DONE]` sentinel is represented by the end
of the unit list. -/
inductive StreamUnit
  | token (content : String)
  | message (msg : ChatMessage)
  | error
  deriving DecidableEq

/-- The fields of `StreamInput` that the translator reads. -/
structure StreamInput where
  message : String
  stream_tokens : Bool
  deriving DecidableEq

/-- Translator state threaded through `message_generator`: the emitted units,
the `final_ai_message_sent` and `is_last_update` flags, a counter standing in
for `uuid4()` when minting temporary tool-call ids, the contents of messages
that received the `skip_stream` tag, and the logged warnings. -/
structure GenState where
  units : List StreamUnit := []
  finalSent : Bool := false
  isLast : Bool := false
  counter : Nat := 0
  tagged : List String := []
  warnings : List String := []
  deriving DecidableEq

/-- `"messages" in list(event.values())[0]` for the first node value of an
`updates` event: key membership for a state dict, element membership for an
interrupt tuple (never `"messages"`, which is not an `Interrupt`). -/
def hasMessagesKey : NodeUpdate → Bool
  | .state msgs => msgs.isSome
  | .interrupts _ => false

/-- The messages extracted from one `(node, updates)` pair of an `updates`
event (service.py lines 236-261): interrupts become synthetic AI messages;
`supervisor` keeps only its last AI message; `research_expert`/`math_expert`
messages are re-tagged as tool messages with an empty `tool_call_id`.

The total Lean function returns `[]` on the node shapes where the Python
raises instead of producing messages (an expert node with an empty message
list hits `update_messages[0]` and raises IndexError at line 256; a
non-`__interrupt__` node carrying an interrupt tuple raises at
`updates.get`, and an `__interrupt__` node carrying a state dict raises at
`interrupt.value`) — on those inputs the real generator dies and the stream
aborts, delivering nothing.  `nodeOk` below characterises the non-raising
node shapes; on every `nodeOk` input this function agrees with the source,
and any claim about a *completed* stream assumes `eventOk` for its events. -/
def nodeMessages : String × NodeUpdate → List LCMessage
  | (node, u) =>
    if node = "__interrupt__" then
      match u with
      | .interrupts vals => vals.map (fun v => LCMessage.ai v [])
      | .state _ => []
    else
      let update_messages :=
        match u with
        | .state msgs => msgs.getD []
        | .interrupts _ => []
      let update_messages :=
        if node = "supervisor" then
          let ais := update_messages.filter (fun m => m.isAI)
          match ais.getLast? with
          | some a => [a]
          | none => update_messages
        else update_messages
      if node = "research_expert" ∨ node = "math_expert" then
        match update_messages with
        | m :: _ => [LCMessage.tool m.contentOf node ""]
        | [] => []
      else update_messages

/-- All messages extracted from an `updates` event, in node order. -/
def nodeMessagesAll (ev : List (String × NodeUpdate)) : List LCMessage :=
  ev.flatMap nodeMessages

/-- The `(node, updates)` shapes on which the translator's node handling
does *not* raise (see the `nodeMessages` comment): an `__interrupt__` node
must carry the interrupt tuple; any other node must carry a state dict; and
a `research_expert`/`math_expert` node must have a non-empty message list
(otherwise `update_messages[0]` raises IndexError at service.py line 256). -/
def nodeOk : String × NodeUpdate → Bool
  | (node, u) =>
    if node = "__interrupt__" then
      match u with
      | NodeUpdate.interrupts _ => true
      | NodeUpdate.state _ => false
    else
      match u with
      | NodeUpdate.interrupts _ => false
      | NodeUpdate.state msgs =>
        if node = "research_expert" ∨ node = "math_expert" then
          !(msgs.getD []).isEmpty
        else true

/-- A stream event the translator consumes without raising: every node of
an `updates` event is `nodeOk`; the other event kinds have no raising
branch in the modelled code. -/
def eventOk : StreamEvent → Bool
  | StreamEvent.updates ev => ev.all nodeOk
  | _ => true

/-- Per-message body of the translator loop (service.py lines 265-298):
convert, attach `run_id`, possibly mark/tag the final AI message, drop the
echoed human input, fill in an empty tool-call id (with a warning), and emit
the message unit. -/
def processMessage (inp : StreamInput) (rid : String) (g : GenState)
    (m : LCMessage) : GenState :=
  let cm := { langchain_to_chat_message m with run_id := rid }
  let skip := inp.stream_tokens = true ∧ g.isLast = true ∧ m.isAI = true ∧
    m.toolCallsOf = [] ∧ g.finalSent = false
  let g := if skip then
      { g with finalSent := true, tagged := g.tagged ++ [cm.content] }
    else g
  if cm.type = MsgType.human ∧ cm.content = inp.message then g
  else if cm.type = MsgType.tool ∧ cm.tool_call_id = "" then
    { g with
      units := g.units ++
        [StreamUnit.message
          { cm with tool_call_id := "temp_tool_" ++ toString g.counter }],
      counter := g.counter + 1,
      warnings := g.warnings ++ ["Found empty tool_call_id, assigned temporary ID"] }
  else { g with units := g.units ++ [StreamUnit.message cm] }

/-- One iteration of the translator's event loop (service.py lines 221-315). -/
def genStep (inp : StreamInput) (rid : String) (g : GenState) :
    StreamEvent → GenState
  | .nontuple => g
  | .updates ev =>
    let g :=
      match ev with
      | [] => g
      | (_, u) :: _ => if hasMessagesKey u then { g with isLast := true } else g
    (nodeMessagesAll ev).foldl (processMessage inp rid) g
  | .custom payload => processMessage inp rid g (LCMessage.custom payload)
  | .messages tok =>
    if inp.stream_tokens = false then g
    else if tok.tags.contains "skip_stream" then g
    else if tok.isChunk = false then g
    else if tok.content ≠ "" then
      { g with units := g.units ++ [StreamUnit.token tok.content] }
    else g

/-- `message_generator` (service.py lines 205-317) as a function from the
framework's event stream to the translated unit stream plus bookkeeping. -/
def messageGenerator (inp : StreamInput) (rid : String)
    (es : List StreamEvent) : GenState :=
  es.foldl (genStep inp rid) {}

/-! ### Transcript Client fold (`draw_messages`, streamlit_app.py lines 256-478)

The while loop that consumes `ChatMessage | str` items is linearised as a
fold over the unit list: the inner `for _ in range(len(call_results))` loop
that pulls tool results from the same iterator becomes a "consuming" mode,
recorded by `pendingIds`/`pendingCount` in the fold state.  `halted` models
an uncaught exception / `st.stop()` (the end-of-stream block does not run);
`stopped` models the walrus `while msg := ...` terminating on a falsy item
(the end-of-stream block still runs).  `error` units are modelled from the
spec as the client raising while iterating the stream (missing
`client/client.py`). -/

/-- The local and session state that `draw_messages` reads and writes.
`transcript` is `st.session_state.messages`; the remaining fields are the
function's locals plus observables (rendered warnings/errors, and which
tool-call slot each tool result was attached to). -/
structure FoldState where
  transcript : List ChatMessage
  lastMessageType : String := ""
  streamingContent : String := ""
  streamingPlaceholder : Bool := false
  finalMessageAppended : Bool := false
  toolCallsSeen : List ToolCall := []
  toolResponsesSeen : List ChatMessage := []
  warnings : List String := []
  errors : List String := []
  attachments : List (String × String) := []
  halted : Bool := false
  stopped : Bool := false
  pendingIds : List String := []
  pendingCount : Nat := 0
  deriving DecidableEq

/-- The duplicate test for a new `ai` unit (streamlit_app.py lines 304-310):
an existing `ai` entry with identical non-empty content, or with identical
non-empty tool calls. -/
def aiDuplicate (ts : List ChatMessage) (m : ChatMessage) : Bool :=
  ts.any fun e => decide (e.type = MsgType.ai ∧
    ((m.content ≠ "" ∧ e.content = m.content) ∨
     (m.tool_calls ≠ [] ∧ e.tool_calls = m.tool_calls)))

/-- The duplicate test for a `tool` unit (lines 373-379 and 412-418):
an existing `tool` entry with the same `tool_call_id` and content. -/
def toolDuplicate (ts : List ChatMessage) (m : ChatMessage) : Bool :=
  ts.any fun e => decide (e.type = MsgType.tool ∧
    e.tool_call_id = m.tool_call_id ∧ e.content = m.content)

/-- The duplicate test for a `custom` unit (lines 438-443): an existing
`custom` entry with the same `custom_data`. -/
def customDuplicate (ts : List ChatMessage) (m : ChatMessage) : Bool :=
  ts.any fun e => decide (e.type = MsgType.custom ∧
    e.custom_data = m.custom_data)

/-- `tool_calls_seen` accumulation (lines 344-346): append each tool call not
yet seen, in order. -/
def addToolCalls (seen : List ToolCall) (tcs : List ToolCall) : List ToolCall :=
  tcs.foldl (fun acc tc => if tc ∈ acc then acc else acc ++ [tc]) seen

/-- The keys of the `call_results` dict (lines 348-354): tool-call ids in
first-occurrence order (assigning an existing dict key keeps its position). -/
def dedupIds (tcs : List ToolCall) : List String :=
  tcs.foldl (fun acc tc => if acc.contains tc.id then acc else acc ++ [tc.id]) []

/-- Streaming-token branch (lines 271-288): open an in-progress AI message on
the first token and accumulate the scratch buffer. -/
def stepToken (st : FoldState) (s : String) : FoldState :=
  let st :=
    if st.streamingPlaceholder = false then
      { st with lastMessageType := "ai", streamingPlaceholder := true }
    else st
  { st with streamingContent := st.streamingContent ++ s }

/-- Lines 301-316: append a new `ai` unit with deduplication, remembering
when an AI message with content made it into the transcript. -/
def aiAppend (isNew : Bool) (st : FoldState) (m : ChatMessage) : FoldState :=
  if isNew = true ∧ (m.content ≠ "" ∨ m.tool_calls ≠ []) then
    if aiDuplicate st.transcript m then st
    else
      { st with transcript := st.transcript ++ [m],
                finalMessageAppended :=
                  if m.content ≠ "" then true else st.finalMessageAppended }
  else st

/-- Lines 318-328: open a fresh `st.chat_message("ai")` container. -/
def aiMarkLast (st : FoldState) : FoldState :=
  if st.lastMessageType ≠ "ai" then { st with lastMessageType := "ai" } else st

/-- Lines 330-340: a whole AI message with content closes any open token
buffer. -/
def aiCloseStream (st : FoldState) (m : ChatMessage) : FoldState :=
  if m.content ≠ "" then
    if st.streamingPlaceholder = true then
      { st with streamingContent := "", streamingPlaceholder := false }
    else st
  else st

/-- Lines 342-358: record the tool calls and open the consuming mode for
`len(call_results)` pulled tool results. -/
def aiOpenCalls (st : FoldState) (m : ChatMessage) : FoldState :=
  if m.tool_calls = [] then st
  else
    { st with toolCallsSeen := addToolCalls st.toolCallsSeen m.tool_calls,
              pendingIds := dedupIds m.tool_calls,
              pendingCount := (dedupIds m.tool_calls).length }

/-- The `"ai"` case (lines 300-358, up to the tool-result loop). -/
def stepAI (isNew : Bool) (st : FoldState) (m : ChatMessage) : FoldState :=
  aiOpenCalls (aiCloseStream (aiMarkLast (aiAppend isNew st m)) m) m

/-- Lines 406-421: the standalone-`tool` tracking and deduplicated append. -/
def toolAppendStandalone (isNew : Bool) (st : FoldState) (m : ChatMessage) :
    FoldState :=
  if isNew = true then
    if m ∈ st.toolResponsesSeen then st
    else
      if toolDuplicate st.transcript m then
        { st with toolResponsesSeen := st.toolResponsesSeen ++ [m] }
      else
        { st with toolResponsesSeen := st.toolResponsesSeen ++ [m],
                  transcript := st.transcript ++ [m] }
  else st

/-- Lines 423-427: flag a tool response arriving without a preceding AI
message (without stopping). -/
def toolFlagStandalone (st : FoldState) (m : ChatMessage) : FoldState :=
  if st.lastMessageType ≠ "ai" then
    { st with errors := st.errors ++
        ["Received tool response without a preceding AI message: " ++ m.tool_call_id] }
  else st

/-- The standalone `"tool"` case (lines 403-427). -/
def stepTool (isNew : Bool) (st : FoldState) (m : ChatMessage) : FoldState :=
  toolFlagStandalone (toolAppendStandalone isNew st m) m

/-- Lines 436-446: deduplicated append of a validated `custom` unit. -/
def customAppend (isNew : Bool) (st : FoldState) (m : ChatMessage) : FoldState :=
  if isNew = true then
    if customDuplicate st.transcript m then st
    else { st with transcript := st.transcript ++ [m] }
  else st

/-- Lines 448-455: open the `task` chat container. -/
def customMarkLast (st : FoldState) : FoldState :=
  if st.lastMessageType ≠ "task" then { st with lastMessageType := "task" }
  else st

/-- The `"custom"` case (lines 429-455): validate the payload (`tv` is the
`TaskData.model_validate` predicate, whose schema lives in the missing
`schema/task_data.py`), stop on validation failure, otherwise append with
deduplication. -/
def stepCustom (tv : String → Bool) (isNew : Bool) (st : FoldState)
    (m : ChatMessage) : FoldState :=
  if tv m.custom_data = true then
    customMarkLast (customAppend isNew st m)
  else { st with halted := true }

/-- Lines 366-368: track a pulled tool result. -/
def trackSeen (st : FoldState) (tm : ChatMessage) : FoldState :=
  if tm ∈ st.toolResponsesSeen then st
  else { st with toolResponsesSeen := st.toolResponsesSeen ++ [tm] }

/-- Lines 370-382: deduplicated transcript append of a pulled tool result. -/
def toolAppendPulled (isNew : Bool) (st : FoldState) (tm : ChatMessage) :
    FoldState :=
  if isNew = true then
    if toolDuplicate st.transcript tm then st
    else { st with transcript := st.transcript ++ [tm] }
  else st

/-- Lines 384-396: attach the result to the matching `call_results` slot,
falling back to the first slot (with a visible warning) when the id matches
no open call. -/
def attachResult (st : FoldState) (tm : ChatMessage) : FoldState :=
  if st.pendingIds.contains tm.tool_call_id then
    { st with attachments := st.attachments ++ [(tm.tool_call_id, tm.tool_call_id)] }
  else
    match st.pendingIds with
    | slot :: _ =>
      { st with attachments := st.attachments ++ [(tm.tool_call_id, slot)],
                warnings := st.warnings ++
                  ["Tool result could not be matched to a tool call: " ++ tm.tool_call_id] }
    | [] =>
      { st with errors := st.errors ++
          ["Could not find a matching tool call for result: " ++ tm.tool_call_id] }

/-- One pulled tool result inside the tool-call loop (lines 360-396). -/
def consumeOne (isNew : Bool) (st : FoldState) (tm : ChatMessage) : FoldState :=
  attachResult (toolAppendPulled isNew (trackSeen st tm) tm) tm

/-- One unit handled while the tool-result loop is open: a non-`tool` message
stops the view (`st.stop()`); a raw token would raise an `AttributeError`
(`tool_result.type` on a `str`), and an `error` unit raises in the client. -/
def consumeStep (isNew : Bool) (st : FoldState) : StreamUnit → FoldState
  | .message tm =>
    if tm.type = MsgType.tool then
      let st := consumeOne isNew st tm
      { st with pendingCount := st.pendingCount - 1 }
    else { st with halted := true,
                   errors := st.errors ++ ["Unexpected ChatMessage type"] }
  | .token _ => { st with halted := true }
  | .error => { st with halted := true }

/-- One iteration of the `while msg := await anext(...)` loop. -/
def foldStep (tv : String → Bool) (isNew : Bool) (st : FoldState)
    (u : StreamUnit) : FoldState :=
  if st.halted = true ∨ st.stopped = true then st
  else if st.pendingCount ≠ 0 then consumeStep isNew st u
  else
    match u with
    | .token s => if s = "" then { st with stopped := true } else stepToken st s
    | .error => { st with halted := true }
    | .message m =>
      match m.type with
      | .human => { st with lastMessageType := "human" }
      | .ai => stepAI isNew st m
      | .tool => stepTool isNew st m
      | .custom => stepCustom tv isNew st m

/-- The end-of-stream block (lines 462-478): if tokens were streamed but no
final AI message with content was appended, finalise the scratch buffer into
an AI message, with deduplication. -/
def finalizeStream (isNew : Bool) (st : FoldState) : FoldState :=
  if isNew = true ∧ st.streamingContent ≠ "" ∧ st.finalMessageAppended = false then
    if st.transcript.any (fun e =>
        decide (e.type = MsgType.ai ∧ e.content = st.streamingContent)) then st
    else
      { st with transcript := st.transcript ++
          [{ type := MsgType.ai, content := st.streamingContent }] }
  else st

/-- The fold state at the top of `draw_messages`: all locals fresh, only the
session transcript carried over. -/
def initFoldState (transcript : List ChatMessage) : FoldState :=
  { transcript := transcript }

/-- `draw_messages` end to end: run the loop over the units; if it ended by
exception nothing else runs; otherwise record the "stream ended unexpectedly"
error when tool results were still pending, and run the end-of-stream block. -/
def drawMessages (tv : String → Bool) (isNew : Bool)
    (transcript : List ChatMessage) (units : List StreamUnit) : FoldState :=
  let st := units.foldl (foldStep tv isNew) (initFoldState transcript)
  if st.halted = true then st
  else
    let st :=
      if st.pendingCount ≠ 0 then
        { st with errors := st.errors ++
            ["Stream ended unexpectedly while waiting for tool responses"] }
      else st
    finalizeStream isNew st

/-! ### Turn dispatch and route-level error handling
(`_handle_input`, `invoke`, `history` in service.py; `get_agent` in
agents.py) -/

/-- The fields of `UserInput` that dispatch reads.  `agent_config` is kept as
an association list of string keys and opaque values. -/
structure UserInput where
  message : String
  model : Option String := none
  thread_id : Option String := none
  agent_config : List (String × String) := []
  deriving DecidableEq

/-- One task of the thread's execution state snapshot, reduced to its
`interrupts` tuple (each interrupt reduced to its opaque value). -/
structure TaskState where
  interrupts : List String
  deriving DecidableEq

/-- `agent.aget_state(config).tasks`. -/
structure AgentState where
  tasks : List TaskState
  deriving DecidableEq

/-- The two shapes `_handle_input` can dispatch: `Command(resume=...)` or a
fresh `HumanMessage` input dict. -/
inductive AgentInput
  | commandResume (value : String)
  | humanMessages (content : String)
  deriving DecidableEq

/-- Structured payload of an `HTTPException.detail`. -/
inductive ErrDetail
  | text (s : String)
  | reservedKeys (keys : List String)
  deriving DecidableEq

/-- The reserved `configurable` keys (`service.py` line 136). -/
def configurableKeys : List String := ["thread_id", "model"]

/-- `configurable.keys() & user_input.agent_config.keys()`. -/
def overlapKeys (cfg : List (String × String)) : List String :=
  configurableKeys.filter (fun k => cfg.any (fun p => decide (p.1 = k)))

/-- `_handle_input` (service.py lines 126-168), reduced to its two
observable decisions: reject reserved-key collisions with a 422 naming the
overlap, and dispatch as a resume exactly when some task of the thread's
state has pending interrupts. -/
def handle_input (inp : UserInput) (st : AgentState) :
    Except (Nat × ErrDetail) AgentInput :=
  if inp.agent_config ≠ [] ∧ overlapKeys inp.agent_config ≠ [] then
    Except.error (422, ErrDetail.reservedKeys (overlapKeys inp.agent_config))
  else if st.tasks.any (fun t => !t.interrupts.isEmpty) then
    Except.ok (AgentInput.commandResume inp.message)
  else
    Except.ok (AgentInput.humanMessages inp.message)

/-- The keys of the `AGENTS` dict (agents.py lines 18-21). -/
def agentKeys : List String := ["research-assistant", "mcp-agent"]

/-- `DEFAULT_AGENT` (agents.py line 10). -/
def DEFAULT_AGENT : String := "mcp-agent"

/-- `get_agent` (agents.py lines 23-33): an unknown key raises
`ValueError(f"Agent {agent_id} not found")`; the graph itself is opaque. -/
def get_agent (agent_id : String) : Except String Unit :=
  if agentKeys.contains agent_id then Except.ok ()
  else Except.error ("Agent " ++ agent_id ++ " not found")

/-- `get_agent_with_model` (service.py lines 44-70): the `mcp-agent` +
explicit model path builds or reuses a cached instance (construction is an
external collaborator and modelled as succeeding); every other request falls
back to `get_agent`. -/
def get_agent_with_model (agent_id : String) (model : Option String) :
    Except String Unit :=
  if agent_id = "mcp-agent" ∧ model.isSome then Except.ok ()
  else get_agent agent_id

/-- Outcome of a route handler as the HTTP layer sees it: a successful body,
an `HTTPException`, or an exception that escaped the handler (which FastAPI
reports as a generic 500 response). -/
inductive RouteResult (α : Type)
  | ok (value : α)
  | httpError (status : Nat) (detail : ErrDetail)
  | unhandled (msg : String)
  deriving DecidableEq

/-- The HTTP status code of a route outcome (an unhandled exception becomes
the framework's 500 Internal Server Error). -/
def responseStatus {α : Type} : RouteResult α → Nat
  | RouteResult.ok _ => 200
  | RouteResult.httpError s _ => s
  | RouteResult.unhandled _ => 500

/-- The last element of `response_events` in `invoke` (service.py lines
184-196): a `values` event carrying the state's messages, an `updates` event
carrying `__interrupt__` values, or some other mode (which the code rejects
with a `ValueError` inside the `try`). -/
inductive InvokeResp
  | values (messages : List LCMessage)
  | updatesInterrupt (vals : List String)
  | otherMode (desc : String)
  deriving DecidableEq

/-- `invoke` (service.py lines 171-202).  `exec` is the opaque agent
execution (`agent.ainvoke`), either its final event or a raised exception.
Returns the route outcome paired with the `logger.error` lines emitted.
Agent lookup and `_handle_input` run outside the `try`, so their exceptions
escape the handler. -/
def invoke (agent_id : String) (inp : UserInput) (st : AgentState)
    (exec : Except String InvokeResp) (rid : String) :
    RouteResult ChatMessage × List String :=
  match get_agent_with_model agent_id inp.model with
  | Except.error e => (RouteResult.unhandled e, [])
  | Except.ok _ =>
    match handle_input inp st with
    | Except.error (s, d) => (RouteResult.httpError s d, [])
    | Except.ok _ =>
      match exec with
      | Except.error e =>
        (RouteResult.httpError 500 (ErrDetail.text "Unexpected error"),
         ["An exception occurred: " ++ e])
      | Except.ok resp =>
        match resp with
        | InvokeResp.values msgs =>
          match msgs.getLast? with
          | some m =>
            (RouteResult.ok { langchain_to_chat_message m with run_id := rid }, [])
          | none =>
            (RouteResult.httpError 500 (ErrDetail.text "Unexpected error"),
             ["An exception occurred: list index out of range"])
        | InvokeResp.updatesInterrupt (v :: _) =>
          (RouteResult.ok { langchain_to_chat_message (LCMessage.ai v []) with
              run_id := rid }, [])
        | InvokeResp.updatesInterrupt [] =>
          (RouteResult.httpError 500 (ErrDetail.text "Unexpected error"),
           ["An exception occurred: list index out of range"])
        | InvokeResp.otherMode d =>
          (RouteResult.httpError 500 (ErrDetail.text "Unexpected error"),
           ["An exception occurred: Unexpected response type: " ++ d])

/-- `history` (service.py lines 376-396).  `fetch` is the opaque
`agent.get_state(...)` read of the thread's messages; any exception inside
the `try` becomes the generic 500, with the detail logged. -/
def history (thread_id : String) (fetch : Except String (List LCMessage)) :
    RouteResult (List ChatMessage) × List String :=
  match get_agent DEFAULT_AGENT with
  | Except.error e => (RouteResult.unhandled e, [])
  | Except.ok _ =>
    match fetch with
    | Except.error e =>
      (RouteResult.httpError 500 (ErrDetail.text "Unexpected error"),
       ["An exception occurred: " ++ e])
    | Except.ok msgs =>
      (RouteResult.ok (msgs.map langchain_to_chat_message), [])

/-! ### Derived notions used by the statements -/

/-- Number of `ai`-typed transcript entries with the given content. -/
def countAI (c : String) (ts : List ChatMessage) : Nat :=
  ts.countP (fun m => decide (m.type = MsgType.ai ∧ m.content = c))

/-- Well-formed translated unit streams, as assumed by the Transcript Client
(spec §4.3: "one AI message with N tool calls is immediately followed by
exactly N tool-result messages"): tokens are non-empty, custom payloads
validate, and every AI message carrying tool calls is followed by one tool
result per `call_results` slot. -/
inductive WFUnits (tv : String → Bool) : List StreamUnit → Prop
  | nil : WFUnits tv []
  | tok {s : String} {rest : List StreamUnit} :
      s ≠ "" → WFUnits tv rest → WFUnits tv (StreamUnit.token s :: rest)
  | human {m : ChatMessage} {rest : List StreamUnit} :
      m.type = MsgType.human → WFUnits tv rest →
      WFUnits tv (StreamUnit.message m :: rest)
  | tool {m : ChatMessage} {rest : List StreamUnit} :
      m.type = MsgType.tool → WFUnits tv rest →
      WFUnits tv (StreamUnit.message m :: rest)
  | custom {m : ChatMessage} {rest : List StreamUnit} :
      m.type = MsgType.custom → tv m.custom_data = true → WFUnits tv rest →
      WFUnits tv (StreamUnit.message m :: rest)
  | aiNoCalls {m : ChatMessage} {rest : List StreamUnit} :
      m.type = MsgType.ai → m.tool_calls = [] → WFUnits tv rest →
      WFUnits tv (StreamUnit.message m :: rest)
  | aiCalls {m : ChatMessage} {results rest : List StreamUnit} :
      m.type = MsgType.ai → m.tool_calls ≠ [] →
      results.length = (dedupIds m.tool_calls).length →
      (∀ r ∈ results, ∃ tm, r = StreamUnit.message tm ∧ tm.type = MsgType.tool) →
      WFUnits tv rest →
      WFUnits tv (StreamUnit.message m :: (results ++ rest))

/-- The per-unit guarantees the translator maintains on everything it emits:
no echoed human input, and no `tool` message without a correlation id. -/
def unitOk (inp : StreamInput) (u : StreamUnit) : Prop :=
  ∀ cm, u = StreamUnit.message cm →
    ¬(cm.type = MsgType.human ∧ cm.content = inp.message) ∧
    (cm.type = MsgType.tool → cm.tool_call_id ≠ "")

/-! ## Theorems -/

/-- C3: For every turn submission (that passes the reserved-key check), if
the thread's current execution state contains a task with pending
interrupts, the turn input is dispatched as a resume command carrying the
user's message as the resolution value; otherwise it is dispatched as a
fresh human message; a turn on an interrupted thread is never dispatched as
a plain new message. -/
theorem claim_c3_interrupt_resume (inp : UserInput) (st : AgentState)
    (hcfg : overlapKeys inp.agent_config = []) :
    ((∃ t ∈ st.tasks, t.interrupts ≠ []) →
      handle_input inp st = Except.ok (AgentInput.commandResume inp.message)) ∧
    ((∀ t ∈ st.tasks, t.interrupts = []) →
      handle_input inp st = Except.ok (AgentInput.humanMessages inp.message)) ∧
    ((∃ t ∈ st.tasks, t.interrupts ≠ []) →
      handle_input inp st ≠ Except.ok (AgentInput.humanMessages inp.message)) := by
  have hnc : ¬(inp.agent_config ≠ [] ∧ overlapKeys inp.agent_config ≠ []) :=
    fun h => h.2 hcfg
  refine ⟨?_, ?_, ?_⟩
  · rintro ⟨t, ht, hi⟩
    have hany : st.tasks.any (fun t => !t.interrupts.isEmpty) = true := by
      simp only [List.any_eq_true, Bool.not_eq_true', List.isEmpty_eq_false]
      exact ⟨t, ht, hi⟩
    simp [handle_input, hnc, hany]
  · intro hall
    have hany : st.tasks.any (fun t => !t.interrupts.isEmpty) = false := by
      simp only [List.any_eq_false, Bool.not_eq_true', List.isEmpty_eq_false,
        ne_eq, not_not]
      exact hall
    simp [handle_input, hnc, hany]
  · rintro ⟨t, ht, hi⟩
    have hany : st.tasks.any (fun t => !t.interrupts.isEmpty) = true := by
      simp only [List.any_eq_true, Bool.not_eq_true', List.isEmpty_eq_false]
      exact ⟨t, ht, hi⟩
    simp [handle_input, hnc, hany]

/-- Witness for C3 at a concrete interrupted thread. -/
theorem claim_c3_witness :
    handle_input { message := "yes, proceed" }
        ⟨[⟨["approve the plan?"]⟩]⟩ =
      Except.ok (AgentInput.commandResume "yes, proceed") :=
  (claim_c3_interrupt_resume { message := "yes, proceed" }
      ⟨[⟨["approve the plan?"]⟩]⟩ (by decide)).1
    ⟨⟨["approve the plan?"]⟩, by simp, by decide⟩

/-- C4 counterexample: a turn submitted with an unknown agent identifier
does not produce a 4xx "agent not found" failure; the `ValueError` raised by
`get_agent` escapes the handler (it is raised before the `try` block) and
the caller receives the framework's generic 500. -/
theorem claim_c4_counterexample :
    (invoke "does-not-exist" { message := "hi" } ⟨[]⟩
        (Except.ok (InvokeResp.values [])) "r").1 =
      RouteResult.unhandled "Agent does-not-exist not found" ∧
    responseStatus (invoke "does-not-exist" { message := "hi" } ⟨[]⟩
        (Except.ok (InvokeResp.values [])) "r").1 = 500 := by
  constructor
  · rfl
  · rfl

/-- C4 amended: for every turn submitted with an agent identifier that is
not a known agent key, `get_agent` raises `ValueError("Agent {id} not
found")`, which escapes the route handler unhandled, so the caller receives
a 5xx-class internal failure (the framework's generic 500), not a 4xx-class
"agent not found" error. -/
theorem claim_c4_amended (agent_id : String) (inp : UserInput)
    (st : AgentState) (exec : Except String InvokeResp) (rid : String)
    (h : agentKeys.contains agent_id = false) :
    invoke agent_id inp st exec rid =
      (RouteResult.unhandled ("Agent " ++ agent_id ++ " not found"), []) ∧
    responseStatus (invoke agent_id inp st exec rid).1 = 500 := by
  have hne : agent_id ≠ "mcp-agent" := by
    intro he
    rw [he] at h
    exact absurd h (by decide)
  have h' : agent_id ∉ agentKeys := by simpa using h
  have hga : get_agent_with_model agent_id inp.model =
      Except.error ("Agent " ++ agent_id ++ " not found") := by
    simp [get_agent_with_model, get_agent, hne, h']
  constructor
  · simp [invoke, hga]
  · simp [invoke, hga, responseStatus]

/-- Witness for the amended C4 at a concrete unknown identifier. -/
theorem claim_c4_amended_witness :
    invoke "chat-agent" { message := "hi" } ⟨[]⟩
        (Except.ok (InvokeResp.values [LCMessage.ai "4" []])) "r" =
      (RouteResult.unhandled ("Agent " ++ "chat-agent" ++ " not found"), []) :=
  (claim_c4_amended "chat-agent" { message := "hi" } ⟨[]⟩
      (Except.ok (InvokeResp.values [LCMessage.ai "4" []])) "r" (by decide)).1

/-- C7: for every submitted turn whose `agent_config` contains a reserved
key (`thread_id` or `model`), the request fails synchronously with a 422
whose detail carries exactly the colliding keys, and the opaque agent
execution is never consulted (the outcome is the same for every `exec`). -/
theorem claim_c7_reserved_keys (agent_id : String) (inp : UserInput)
    (st : AgentState) (exec : Except String InvokeResp) (rid : String)
    (hag : agentKeys.contains agent_id = true)
    (hov : overlapKeys inp.agent_config ≠ []) :
    invoke agent_id inp st exec rid =
      (RouteResult.httpError 422
        (ErrDetail.reservedKeys (overlapKeys inp.agent_config)), []) ∧
    (∀ k, k ∈ overlapKeys inp.agent_config ↔
      (k ∈ configurableKeys ∧ ∃ p ∈ inp.agent_config, p.1 = k)) := by
  have hga : get_agent_with_model agent_id inp.model = Except.ok () := by
    have hmem : agent_id ∈ agentKeys := by simpa using hag
    unfold get_agent_with_model get_agent
    simp [hmem]
  have hcfg : inp.agent_config ≠ [] := by
    intro h0
    rw [h0] at hov
    exact hov rfl
  constructor
  · simp only [invoke, hga]
    simp [handle_input, hcfg, hov]
  · intro k
    simp [overlapKeys, List.mem_filter, List.any_eq_true]

/-- Witness for C7 at a concrete colliding configuration. -/
theorem claim_c7_witness :
    invoke "mcp-agent"
        { message := "hi", agent_config := [("thread_id", "t1")] } ⟨[]⟩
        (Except.ok (InvokeResp.values [LCMessage.ai "4" []])) "r" =
      (RouteResult.httpError 422
        (ErrDetail.reservedKeys
          (overlapKeys [("thread_id", "t1")])), []) :=
  (claim_c7_reserved_keys "mcp-agent"
      { message := "hi", agent_config := [("thread_id", "t1")] } ⟨[]⟩
      (Except.ok (InvokeResp.values [LCMessage.ai "4" []])) "r"
      (by decide) (by decide)).1

/-- C8: whenever the opaque agent execution (or the history fetch) raises,
the caller receives HTTP 500 with the fixed generic detail "Unexpected
error" — a constant that does not depend on the exception, so the body never
reflects the exception's text — while the full exception text is logged
server-side. -/
theorem claim_c8_opaque_errors :
    (∀ (agent_id : String) (inp : UserInput) (st : AgentState) (rid e : String),
      agentKeys.contains agent_id = true →
      overlapKeys inp.agent_config = [] →
      invoke agent_id inp st (Except.error e) rid =
        (RouteResult.httpError 500 (ErrDetail.text "Unexpected error"),
         ["An exception occurred: " ++ e])) ∧
    (∀ (thread_id e : String),
      history thread_id (Except.error e) =
        (RouteResult.httpError 500 (ErrDetail.text "Unexpected error"),
         ["An exception occurred: " ++ e])) := by
  constructor
  · intro agent_id inp st rid e hag hov
    have hga : get_agent_with_model agent_id inp.model = Except.ok () := by
      have hmem : agent_id ∈ agentKeys := by simpa using hag
      unfold get_agent_with_model get_agent
      simp [hmem]
    have hnc : ¬(inp.agent_config ≠ [] ∧ overlapKeys inp.agent_config ≠ []) :=
      fun h => h.2 hov
    have hhi : handle_input inp st = Except.ok (AgentInput.commandResume inp.message) ∨
        handle_input inp st = Except.ok (AgentInput.humanMessages inp.message) := by
      unfold handle_input
      rw [if_neg hnc]
      split
      · exact Or.inl rfl
      · exact Or.inr rfl
    rcases hhi with hh | hh <;> simp [invoke, hga, hh]
  · intro thread_id e
    rfl

/-- Witness for C8 at a concrete failing execution and history fetch. -/
theorem claim_c8_witness :
    invoke "mcp-agent" { message := "hi" } ⟨[]⟩
        (Except.error "connection reset by provider") "r" =
      (RouteResult.httpError 500 (ErrDetail.text "Unexpected error"),
       ["An exception occurred: " ++ "connection reset by provider"]) ∧
    history "t1" (Except.error "database unavailable") =
      (RouteResult.httpError 500 (ErrDetail.text "Unexpected error"),
       ["An exception occurred: " ++ "database unavailable"]) :=
  ⟨claim_c8_opaque_errors.1 "mcp-agent" { message := "hi" } ⟨[]⟩ "r"
      "connection reset by provider" (by decide) (by decide),
   claim_c8_opaque_errors.2 "t1" "database unavailable"⟩

/-! ### Transcript folding lemmas -/

theorem aiDuplicate_of_mem {ts : List ChatMessage} {m : ChatMessage}
    (hm : m ∈ ts) (hty : m.type = MsgType.ai)
    (hc : m.content ≠ "" ∨ m.tool_calls ≠ []) : aiDuplicate ts m = true := by
  simp only [aiDuplicate, List.any_eq_true, decide_eq_true_eq]
  refine ⟨m, hm, hty, ?_⟩
  rcases hc with h | h
  · exact Or.inl ⟨h, rfl⟩
  · exact Or.inr ⟨h, rfl⟩

theorem toolDuplicate_of_mem {ts : List ChatMessage} {m : ChatMessage}
    (hm : m ∈ ts) (hty : m.type = MsgType.tool) : toolDuplicate ts m = true := by
  simp only [toolDuplicate, List.any_eq_true, decide_eq_true_eq]
  exact ⟨m, hm, hty, rfl, rfl⟩

theorem customDuplicate_of_mem {ts : List ChatMessage} {m : ChatMessage}
    (hm : m ∈ ts) (hty : m.type = MsgType.custom) : customDuplicate ts m = true := by
  simp only [customDuplicate, List.any_eq_true, decide_eq_true_eq]
  exact ⟨m, hm, hty, rfl⟩

theorem trackSeen_transcript (st : FoldState) (tm : ChatMessage) :
    (trackSeen st tm).transcript = st.transcript := by
  unfold trackSeen
  split <;> rfl

theorem attachResult_transcript (st : FoldState) (tm : ChatMessage) :
    (attachResult st tm).transcript = st.transcript := by
  unfold attachResult
  split
  · rfl
  · split <;> rfl

theorem aiMarkLast_transcript (st : FoldState) :
    (aiMarkLast st).transcript = st.transcript := by
  unfold aiMarkLast
  split <;> rfl

theorem aiCloseStream_transcript (st : FoldState) (m : ChatMessage) :
    (aiCloseStream st m).transcript = st.transcript := by
  unfold aiCloseStream
  split
  · split <;> rfl
  · rfl

theorem aiOpenCalls_transcript (st : FoldState) (m : ChatMessage) :
    (aiOpenCalls st m).transcript = st.transcript := by
  unfold aiOpenCalls
  split <;> rfl

theorem customMarkLast_transcript (st : FoldState) :
    (customMarkLast st).transcript = st.transcript := by
  unfold customMarkLast
  split <;> rfl

theorem toolFlagStandalone_transcript (st : FoldState) (m : ChatMessage) :
    (toolFlagStandalone st m).transcript = st.transcript := by
  unfold toolFlagStandalone
  split <;> rfl

theorem toolAppendPulled_transcript_of_dup (isNew : Bool) (st : FoldState)
    (tm : ChatMessage) (h : toolDuplicate st.transcript tm = true) :
    (toolAppendPulled isNew st tm).transcript = st.transcript := by
  unfold toolAppendPulled
  split <;> first | rfl | exact absurd h (by assumption)

theorem consumeOne_transcript_of_dup (isNew : Bool) (st : FoldState)
    (tm : ChatMessage) (h : toolDuplicate st.transcript tm = true) :
    (consumeOne isNew st tm).transcript = st.transcript := by
  unfold consumeOne
  rw [attachResult_transcript,
    toolAppendPulled_transcript_of_dup _ _ _ (by rw [trackSeen_transcript]; exact h),
    trackSeen_transcript]

theorem aiAppend_transcript_of_dup (isNew : Bool) (st : FoldState)
    (m : ChatMessage)
    (h : aiDuplicate st.transcript m = true ∨
      ¬(m.content ≠ "" ∨ m.tool_calls ≠ [])) :
    (aiAppend isNew st m).transcript = st.transcript := by
  unfold aiAppend
  rcases h with h | h
  · split <;> first | rfl | exact absurd h (by assumption)
  · rw [if_neg (fun hc => h hc.2)]

theorem stepAI_transcript_of_dup (isNew : Bool) (st : FoldState)
    (m : ChatMessage)
    (h : aiDuplicate st.transcript m = true ∨
      ¬(m.content ≠ "" ∨ m.tool_calls ≠ [])) :
    (stepAI isNew st m).transcript = st.transcript := by
  unfold stepAI
  rw [aiOpenCalls_transcript, aiCloseStream_transcript, aiMarkLast_transcript,
    aiAppend_transcript_of_dup _ _ _ h]

theorem stepTool_transcript_of_dup (isNew : Bool) (st : FoldState)
    (m : ChatMessage) (h : toolDuplicate st.transcript m = true) :
    (stepTool isNew st m).transcript = st.transcript := by
  unfold stepTool toolAppendStandalone
  rw [toolFlagStandalone_transcript]
  split
  all_goals try split
  all_goals first | rfl | (rename_i hnd; exact absurd h hnd)

theorem stepCustom_transcript_of_dup (tv : String → Bool) (isNew : Bool)
    (st : FoldState) (m : ChatMessage)
    (h : customDuplicate st.transcript m = true) :
    (stepCustom tv isNew st m).transcript = st.transcript := by
  unfold stepCustom customAppend
  split
  · rw [customMarkLast_transcript]
    split <;> first | rfl | exact absurd h (by assumption)
  · rfl

/-- C5: folding a whole message unit that is already present in the
transcript is idempotent — whatever the message type (an `ai` unit whose
content and tool calls equal an existing `ai` entry's, a `tool` unit whose
`(tool_call_id, content)` equal an existing `tool` entry's, a `custom` unit
whose `custom_data` equals an existing `custom` entry's), the re-delivery is
silently skipped and the transcript is left unchanged. -/
theorem claim_c5_idempotent_fold (tv : String → Bool) (isNew : Bool)
    (st : FoldState) (m : ChatMessage) (hm : m ∈ st.transcript) :
    (foldStep tv isNew st (StreamUnit.message m)).transcript = st.transcript := by
  simp only [foldStep]
  split
  · rfl
  split
  · -- consuming mode: the result is either dedup-skipped or the view stops
    simp only [consumeStep]
    split
    · rename_i htool
      show (consumeOne isNew st m).transcript = st.transcript
      exact consumeOne_transcript_of_dup _ _ _ (toolDuplicate_of_mem hm htool)
    · rfl
  · -- normal mode: dispatch on the message type
    cases hmt : m.type with
    | human => rfl
    | ai =>
      by_cases hc : m.content ≠ "" ∨ m.tool_calls ≠ []
      · exact stepAI_transcript_of_dup _ _ _ (Or.inl (aiDuplicate_of_mem hm hmt hc))
      · exact stepAI_transcript_of_dup _ _ _ (Or.inr hc)
    | tool => exact stepTool_transcript_of_dup _ _ _ (toolDuplicate_of_mem hm hmt)
    | custom =>
      by_cases hv : tv m.custom_data = true
      · exact stepCustom_transcript_of_dup _ _ _ _ (customDuplicate_of_mem hm hmt)
      · unfold stepCustom
        rw [if_neg hv]

/-- Witness for C5: re-delivering an `ai` unit already present leaves the
two-entry transcript unchanged. -/
theorem claim_c5_witness :
    (foldStep (fun _ => true) true
        (initFoldState
          [{ type := MsgType.human, content := "2+2?" },
           { type := MsgType.ai, content := "4" }])
        (StreamUnit.message { type := MsgType.ai, content := "4" })).transcript =
      [{ type := MsgType.human, content := "2+2?" },
       { type := MsgType.ai, content := "4" }] :=
  claim_c5_idempotent_fold (fun _ => true) true
    (initFoldState
      [{ type := MsgType.human, content := "2+2?" },
       { type := MsgType.ai, content := "4" }])
    { type := MsgType.ai, content := "4" } (by decide)

theorem aiDuplicate_of_toolCalls {ts : List ChatMessage} {m : ChatMessage}
    (hc : m.tool_calls ≠ [])
    (he : ∃ e ∈ ts, e.type = MsgType.ai ∧ e.tool_calls = m.tool_calls) :
    aiDuplicate ts m = true := by
  simp only [aiDuplicate, List.any_eq_true, decide_eq_true_eq]
  obtain ⟨e, hmem, hty, htc⟩ := he
  exact ⟨e, hmem, hty, Or.inr ⟨hc, htc⟩⟩

/-- C10 counterexample: the claim says a new `ai` unit is skipped whenever
some existing `ai` entry has equal `tool_calls`, even with different
content; but for two messages with (equal) empty `tool_calls` and different
contents the fold appends the new unit. -/
theorem claim_c10_counterexample :
    (foldStep (fun _ => true) true
        (initFoldState [{ type := MsgType.ai, content := "hello" }])
        (StreamUnit.message { type := MsgType.ai, content := "world" })).transcript =
      [{ type := MsgType.ai, content := "hello" },
       { type := MsgType.ai, content := "world" }] ∧
    ({ type := MsgType.ai, content := "hello" } : ChatMessage).tool_calls =
      ({ type := MsgType.ai, content := "world" } : ChatMessage).tool_calls ∧
    ({ type := MsgType.ai, content := "hello" } : ChatMessage).content ≠
      ({ type := MsgType.ai, content := "world" } : ChatMessage).content := by
  refine ⟨?_, rfl, by decide⟩
  decide

/-- C10 amended: when the Transcript Client folds a new `ai` message unit,
it skips appending it whenever the unit's tool_calls list is *non-empty* and
equals some existing `ai` transcript entry's tool_calls, even if the two
messages' contents differ; and an `ai` unit with empty content and no tool
calls is never appended to the transcript at all. -/
theorem claim_c10_amended (tv : String → Bool) (st : FoldState)
    (m : ChatMessage) (hh : st.halted = false) (hs : st.stopped = false)
    (hp : st.pendingCount = 0) (hty : m.type = MsgType.ai) :
    (m.tool_calls ≠ [] →
      (∃ e ∈ st.transcript, e.type = MsgType.ai ∧ e.tool_calls = m.tool_calls) →
      (foldStep tv true st (StreamUnit.message m)).transcript = st.transcript) ∧
    (m.content = "" → m.tool_calls = [] →
      (foldStep tv true st (StreamUnit.message m)).transcript = st.transcript) := by
  have hred : foldStep tv true st (StreamUnit.message m) = stepAI true st m := by
    simp only [foldStep, hh, hs, hp, hty]
    rfl
  constructor
  · intro hc he
    rw [hred]
    exact stepAI_transcript_of_dup _ _ _ (Or.inl (aiDuplicate_of_toolCalls hc he))
  · intro hcon hc
    rw [hred]
    exact stepAI_transcript_of_dup _ _ _
      (Or.inr (fun h => h.elim (fun hne => hne hcon) (fun hne => hne hc)))

/-- Witness for the amended C10: an `ai` unit sharing its (non-empty)
tool_calls with an existing entry but with different content is skipped. -/
theorem claim_c10_witness :
    (foldStep (fun _ => true) true
        (initFoldState
          [{ type := MsgType.ai, content := "calling",
             tool_calls := [⟨"c1", "calculator", "2+2"⟩] }])
        (StreamUnit.message
          { type := MsgType.ai, content := "calling again",
            tool_calls := [⟨"c1", "calculator", "2+2"⟩] })).transcript =
      [{ type := MsgType.ai, content := "calling",
         tool_calls := [⟨"c1", "calculator", "2+2"⟩] }] :=
  (claim_c10_amended (fun _ => true)
      (initFoldState
        [{ type := MsgType.ai, content := "calling",
           tool_calls := [⟨"c1", "calculator", "2+2"⟩] }])
      { type := MsgType.ai, content := "calling again",
        tool_calls := [⟨"c1", "calculator", "2+2"⟩] }
      rfl rfl rfl rfl).1 (by decide)
    ⟨{ type := MsgType.ai, content := "calling",
       tool_calls := [⟨"c1", "calculator", "2+2"⟩] }, by decide, by decide, rfl⟩

/-! ### Translator emission invariants -/

theorem temp_tool_id_ne_empty (s : String) : "temp_tool_" ++ s ≠ "" := by
  intro h
  have hl := congrArg String.length h
  rw [String.length_append] at hl
  have h10 : ("temp_tool_" : String).length = 10 := rfl
  have h0 : ("" : String).length = 0 := rfl
  rw [h10, h0] at hl
  omega

theorem processMessage_units_shape (inp : StreamInput) (rid : String)
    (g : GenState) (m : LCMessage) :
    (processMessage inp rid g m).units = g.units ∨
    ∃ cm, (processMessage inp rid g m).units = g.units ++ [StreamUnit.message cm] ∧
      ¬(cm.type = MsgType.human ∧ cm.content = inp.message) ∧
      (cm.type = MsgType.tool → cm.tool_call_id ≠ "") := by
  cases m with
  | human c =>
    by_cases hd : c = inp.message
    · refine Or.inl ?_
      simp [processMessage, langchain_to_chat_message, LCMessage.isAI, hd]
    · refine Or.inr ⟨⟨MsgType.human, c, [], "", rid, ""⟩, ?_, ?_, ?_⟩
      · simp [processMessage, langchain_to_chat_message, LCMessage.isAI, hd]
      · rintro ⟨-, hc⟩
        exact hd hc
      · intro h
        simp at h
  | ai c tcs =>
    refine Or.inr ⟨⟨MsgType.ai, c, tcs, "", rid, ""⟩, ?_, ?_, ?_⟩
    · simp only [processMessage, langchain_to_chat_message, LCMessage.isAI,
        LCMessage.toolCallsOf]
      repeat' split <;> simp_all
    · rintro ⟨h, -⟩
      simp at h
    · intro h
      simp at h
  | tool c name id =>
    by_cases hid : id = ""
    · refine Or.inr ⟨⟨MsgType.tool, c, [],
        "temp_tool_" ++ toString g.counter, rid, ""⟩, ?_, ?_, ?_⟩
      · simp [processMessage, langchain_to_chat_message, LCMessage.isAI, hid]
      · rintro ⟨h, -⟩
        simp at h
      · exact fun _ => temp_tool_id_ne_empty _
    · refine Or.inr ⟨⟨MsgType.tool, c, [], id, rid, ""⟩, ?_, ?_, ?_⟩
      · simp [processMessage, langchain_to_chat_message, LCMessage.isAI, hid]
      · rintro ⟨h, -⟩
        simp at h
      · exact fun _ => hid
  | custom d =>
    refine Or.inr ⟨⟨MsgType.custom, "", [], "", rid, d⟩, ?_, ?_, ?_⟩
    · simp [processMessage, langchain_to_chat_message, LCMessage.isAI]
    · rintro ⟨h, -⟩
      simp at h
    · intro h
      simp at h

theorem processMessage_unitOk (inp : StreamInput) (rid : String)
    (g : GenState) (m : LCMessage)
    (hg : ∀ u ∈ g.units, unitOk inp u) :
    ∀ u ∈ (processMessage inp rid g m).units, unitOk inp u := by
  rcases processMessage_units_shape inp rid g m with h | ⟨cm, h, h1, h2⟩
  · rw [h]; exact hg
  · rw [h]
    intro u hu
    rcases List.mem_append.1 hu with hu | hu
    · exact hg u hu
    · rw [List.mem_singleton.1 hu]
      intro cm' hcm'
      cases hcm'
      exact ⟨h1, h2⟩

theorem foldl_processMessage_unitOk (inp : StreamInput) (rid : String)
    (ms : List LCMessage) :
    ∀ g : GenState, (∀ u ∈ g.units, unitOk inp u) →
    ∀ u ∈ (ms.foldl (processMessage inp rid) g).units, unitOk inp u := by
  induction ms with
  | nil => exact fun g hg => hg
  | cons m ms ih =>
    intro g hg
    exact ih _ (processMessage_unitOk inp rid g m hg)

theorem genStep_unitOk (inp : StreamInput) (rid : String) (g : GenState)
    (e : StreamEvent) (hg : ∀ u ∈ g.units, unitOk inp u) :
    ∀ u ∈ (genStep inp rid g e).units, unitOk inp u := by
  cases e with
  | nontuple => exact hg
  | custom payload => exact processMessage_unitOk inp rid g _ hg
  | updates ev =>
    cases ev with
    | nil => exact foldl_processMessage_unitOk inp rid _ g hg
    | cons p ev =>
      obtain ⟨n, u0⟩ := p
      simp only [genStep]
      split
      · exact foldl_processMessage_unitOk inp rid _ _ hg
      · exact foldl_processMessage_unitOk inp rid _ _ hg
  | messages tok =>
    simp only [genStep]
    split
    · exact hg
    split
    · exact hg
    split
    · exact hg
    split
    · intro u hu
      rcases List.mem_append.1 hu with hu | hu
      · exact hg u hu
      · rw [List.mem_singleton.1 hu]
        intro cm hcm
        cases hcm
    · exact hg

theorem messageGenerator_unitOk (inp : StreamInput) (rid : String)
    (es : List StreamEvent) :
    ∀ u ∈ (messageGenerator inp rid es).units, unitOk inp u := by
  unfold messageGenerator
  have : ∀ g : GenState, (∀ u ∈ g.units, unitOk inp u) →
      ∀ u ∈ (es.foldl (genStep inp rid) g).units, unitOk inp u := by
    induction es with
    | nil => exact fun g hg => hg
    | cons e es ih => exact fun g hg => ih _ (genStep_unitOk inp rid g e hg)
  refine this {} ?_
  intro u hu
  cases hu

/-- C6: the translator drops any `human`-typed message whose content exactly
equals the content of the message that originated the current turn — no
`message` StreamUnit carrying such an echo is ever emitted, so the echoed
user input (added locally by the client at submission time) is never
duplicated. -/
theorem claim_c6_no_human_echo (inp : StreamInput) (rid : String)
    (es : List StreamEvent) (cm : ChatMessage)
    (hm : StreamUnit.message cm ∈ (messageGenerator inp rid es).units)
    (hty : cm.type = MsgType.human) : cm.content ≠ inp.message := by
  intro hc
  exact (messageGenerator_unitOk inp rid es _ hm cm rfl).1 ⟨hty, hc⟩

/-- Witness for C6: a human message with different content passes through,
and its content indeed differs from the turn input. -/
theorem claim_c6_witness :
    ({ type := MsgType.human, content := "earlier note", run_id := "r" } :
        ChatMessage).content ≠
      ({ message := "hi", stream_tokens := false } : StreamInput).message :=
  claim_c6_no_human_echo { message := "hi", stream_tokens := false } "r"
    [StreamEvent.updates
      [("agent", NodeUpdate.state (some [LCMessage.human "earlier note"]))]]
    { type := MsgType.human, content := "earlier note", run_id := "r" }
    (by decide) rfl

theorem trackSeen_fields (st : FoldState) (tm : ChatMessage) :
    (trackSeen st tm).warnings = st.warnings ∧
    (trackSeen st tm).attachments = st.attachments ∧
    (trackSeen st tm).pendingIds = st.pendingIds ∧
    (trackSeen st tm).halted = st.halted ∧
    (trackSeen st tm).stopped = st.stopped := by
  unfold trackSeen
  split <;> exact ⟨rfl, rfl, rfl, rfl, rfl⟩

theorem toolAppendPulled_fields (isNew : Bool) (st : FoldState)
    (tm : ChatMessage) :
    (toolAppendPulled isNew st tm).warnings = st.warnings ∧
    (toolAppendPulled isNew st tm).attachments = st.attachments ∧
    (toolAppendPulled isNew st tm).pendingIds = st.pendingIds ∧
    (toolAppendPulled isNew st tm).halted = st.halted ∧
    (toolAppendPulled isNew st tm).stopped = st.stopped := by
  unfold toolAppendPulled
  split
  all_goals try split
  all_goals exact ⟨rfl, rfl, rfl, rfl, rfl⟩

theorem attachResult_unmatched (st : FoldState) (tm : ChatMessage)
    (slot : String) (rest : List String)
    (hpids : st.pendingIds = slot :: rest)
    (hnot : tm.tool_call_id ∉ st.pendingIds) :
    attachResult st tm =
      { st with attachments := st.attachments ++ [(tm.tool_call_id, slot)],
                warnings := st.warnings ++
                  ["Tool result could not be matched to a tool call: " ++
                    tm.tool_call_id] } := by
  unfold attachResult
  rw [hpids] at hnot
  rw [hpids]
  rw [if_neg (by simpa using hnot)]

/-- C9: every `tool` message unit the translator emits carries a non-empty
`tool_call_id` (a message arriving with an empty id gets a fresh synthetic
`temp_tool_*` id, with a warning logged); and the Transcript Client attaches
a pulled tool result whose id matches no open call to the first open
tool-call slot, flags it with a visible warning, and does not raise. -/
theorem claim_c9_synthetic_tool_ids :
    (∀ (inp : StreamInput) (rid : String) (es : List StreamEvent)
      (cm : ChatMessage),
      StreamUnit.message cm ∈ (messageGenerator inp rid es).units →
      cm.type = MsgType.tool → cm.tool_call_id ≠ "") ∧
    (∀ (inp : StreamInput) (rid : String) (g : GenState) (c nm : String),
      (processMessage inp rid g (LCMessage.tool c nm "")).warnings =
        g.warnings ++ ["Found empty tool_call_id, assigned temporary ID"] ∧
      (processMessage inp rid g (LCMessage.tool c nm "")).units =
        g.units ++ [StreamUnit.message
          ⟨MsgType.tool, c, [], "temp_tool_" ++ toString g.counter, rid, ""⟩]) ∧
    (∀ (tv : String → Bool) (isNew : Bool) (st : FoldState) (tm : ChatMessage)
      (slot : String) (rest : List String),
      st.halted = false → st.stopped = false → st.pendingCount ≠ 0 →
      st.pendingIds = slot :: rest → tm.type = MsgType.tool →
      tm.tool_call_id ∉ st.pendingIds →
      (foldStep tv isNew st (StreamUnit.message tm)).halted = false ∧
      (foldStep tv isNew st (StreamUnit.message tm)).attachments =
        st.attachments ++ [(tm.tool_call_id, slot)] ∧
      (foldStep tv isNew st (StreamUnit.message tm)).warnings =
        st.warnings ++
          ["Tool result could not be matched to a tool call: " ++
            tm.tool_call_id]) := by
  refine ⟨?_, ?_, ?_⟩
  · intro inp rid es cm hm hty
    exact (messageGenerator_unitOk inp rid es _ hm cm rfl).2 hty
  · intro inp rid g c nm
    constructor <;>
      simp [processMessage, langchain_to_chat_message, LCMessage.isAI]
  · intro tv isNew st tm slot rest hh hs hp hpids hty hnot
    obtain ⟨h1w, h1a, h1p, h1h, h1s⟩ := trackSeen_fields st tm
    obtain ⟨h2w, h2a, h2p, h2h, h2s⟩ :=
      toolAppendPulled_fields isNew (trackSeen st tm) tm
    have hred : foldStep tv isNew st (StreamUnit.message tm) =
        { consumeOne isNew st tm with
            pendingCount := (consumeOne isNew st tm).pendingCount - 1 } := by
      simp [foldStep, hh, hs, hp, consumeStep, hty]
    have hatt : attachResult (toolAppendPulled isNew (trackSeen st tm) tm) tm =
        { toolAppendPulled isNew (trackSeen st tm) tm with
            attachments :=
              (toolAppendPulled isNew (trackSeen st tm) tm).attachments ++
                [(tm.tool_call_id, slot)],
            warnings :=
              (toolAppendPulled isNew (trackSeen st tm) tm).warnings ++
                ["Tool result could not be matched to a tool call: " ++
                  tm.tool_call_id] } := by
      refine attachResult_unmatched _ _ slot rest ?_ ?_
      · rw [h2p, h1p, hpids]
      · rw [h2p, h1p]
        exact hnot
    rw [hred]
    unfold consumeOne
    rw [hatt]
    refine ⟨?_, ?_, ?_⟩
    · show (toolAppendPulled isNew (trackSeen st tm) tm).halted = false
      rw [h2h, h1h, hh]
    · show (toolAppendPulled isNew (trackSeen st tm) tm).attachments ++ _ = _
      rw [h2a, h1a]
    · show (toolAppendPulled isNew (trackSeen st tm) tm).warnings ++ _ = _
      rw [h2w, h1w]

/-- Witness for C9 at concrete inputs: a translated tool message with empty
id gets a synthetic id and a warning, and the client attaches a mismatched
tool result to the first open slot with a warning, without raising. -/
theorem claim_c9_witness :
    ((⟨MsgType.tool, "8", [], "temp_tool_0", "r", ""⟩ : ChatMessage).type =
          MsgType.tool →
      (⟨MsgType.tool, "8", [], "temp_tool_0", "r", ""⟩ : ChatMessage).tool_call_id ≠ "") ∧
    (processMessage { message := "hi", stream_tokens := false } "r" {}
        (LCMessage.tool "8" "calculator" "")).warnings =
      [] ++ ["Found empty tool_call_id, assigned temporary ID"] ∧
    (foldStep (fun _ => true) true
        { transcript := [], pendingIds := ["c1"], pendingCount := 1 }
        (StreamUnit.message ⟨MsgType.tool, "8", [], "zz", "", ""⟩)).halted =
      false := by
  refine ⟨?_, ?_, ?_⟩
  · intro _
    exact claim_c9_synthetic_tool_ids.1 { message := "hi", stream_tokens := false }
      "r" [StreamEvent.updates
        [("tools", NodeUpdate.state (some [LCMessage.tool "8" "calculator" ""]))]]
      ⟨MsgType.tool, "8", [], "temp_tool_0", "r", ""⟩ (by decide) rfl
  · exact (claim_c9_synthetic_tool_ids.2.1 { message := "hi", stream_tokens := false }
      "r" {} "8" "calculator").1
  · exact (claim_c9_synthetic_tool_ids.2.2 (fun _ => true) true
      { transcript := [], pendingIds := ["c1"], pendingCount := 1 }
      ⟨MsgType.tool, "8", [], "zz", "", ""⟩
      "c1" [] rfl rfl (by decide) rfl rfl (by decide)).1

/-- C2 counterexample: in a streamed turn with token streaming requested
whose last (and only) AI message has no pending tool calls, the translator
still emits that message as a whole `message` StreamUnit — it is tagged
(`tagged = ["4"]`, i.e. `final_ai_message_sent` fired) but not excluded from
the unit stream, contradicting the claim that it "is excluded from being
echoed as a whole `message` StreamUnit". -/
theorem claim_c2_counterexample :
    (messageGenerator { message := "2+2?", stream_tokens := true } "r"
        [StreamEvent.updates
          [("model", NodeUpdate.state (some [LCMessage.ai "4" []]))]]).units =
      [StreamUnit.message ⟨MsgType.ai, "4", [], "", "r", ""⟩] ∧
    (messageGenerator { message := "2+2?", stream_tokens := true } "r"
        [StreamEvent.updates
          [("model", NodeUpdate.state (some [LCMessage.ai "4" []]))]]).tagged =
      ["4"] :=
  ⟨rfl, rfl⟩

/-- C2 amended: for every streamed turn with token streaming requested, the
first AI message without tool calls processed after an update containing
messages is tagged `skip_stream` and marked as the already-streamed final
message, but it is *still emitted* as a whole `message` StreamUnit; and any
token-delta event whose metadata tags contain `skip_stream` is suppressed
(never forwarded as a `token` unit). -/
theorem claim_c2_amended (inp : StreamInput) (rid : String) (g : GenState) :
    (∀ tok : TokenEvent, inp.stream_tokens = true →
      tok.tags.contains "skip_stream" = true →
      genStep inp rid g (StreamEvent.messages tok) = g) ∧
    (∀ c : String, inp.stream_tokens = true → g.isLast = true →
      g.finalSent = false →
      processMessage inp rid g (LCMessage.ai c []) =
        { g with finalSent := true, tagged := g.tagged ++ [c],
                 units := g.units ++
                   [StreamUnit.message ⟨MsgType.ai, c, [], "", rid, ""⟩] }) := by
  constructor
  · intro tok h1 h2
    have h2' : "skip_stream" ∈ tok.tags := by simpa using h2
    simp [genStep, h1, h2']
  · intro c h1 h2 h3
    simp [processMessage, langchain_to_chat_message, LCMessage.isAI,
      LCMessage.toolCallsOf, h1, h2, h3]

/-- Witness for the amended C2: a tagged token event is dropped, and the
tagged final AI message is still emitted whole. -/
theorem claim_c2_witness :
    genStep { message := "2+2?", stream_tokens := true } "r" {}
        (StreamEvent.messages ⟨true, "4", ["skip_stream"]⟩) = {} ∧
    processMessage { message := "2+2?", stream_tokens := true } "r"
        { isLast := true } (LCMessage.ai "4" []) =
      { isLast := true, finalSent := true, tagged := [] ++ ["4"],
        units := [] ++ [StreamUnit.message ⟨MsgType.ai, "4", [], "", "r", ""⟩] } :=
  ⟨(claim_c2_amended { message := "2+2?", stream_tokens := true } "r" {}).1
      ⟨true, "4", ["skip_stream"]⟩ rfl (by decide),
   (claim_c2_amended { message := "2+2?", stream_tokens := true } "r"
      { isLast := true }).2 "4" rfl rfl rfl⟩

/-! ### C1: exactly one final AI message in the folded transcript -/

theorem processMessage_ai_units (inp : StreamInput) (rid : String)
    (g : GenState) (c : String) (tcs : List ToolCall) :
    (processMessage inp rid g (LCMessage.ai c tcs)).units =
      g.units ++ [StreamUnit.message ⟨MsgType.ai, c, tcs, "", rid, ""⟩] := by
  simp only [processMessage, langchain_to_chat_message, LCMessage.isAI,
    LCMessage.toolCallsOf]
  repeat' split <;> simp_all

theorem generator_last_ai (inp : StreamInput) (rid c : String)
    (es₀ : List StreamEvent) (ev : List (String × NodeUpdate))
    (ms₀ : List LCMessage)
    (hms : nodeMessagesAll ev = ms₀ ++ [LCMessage.ai c []]) :
    ∃ pre, (messageGenerator inp rid (es₀ ++ [StreamEvent.updates ev])).units =
      pre ++ [StreamUnit.message ⟨MsgType.ai, c, [], "", rid, ""⟩] := by
  have hsplit : messageGenerator inp rid (es₀ ++ [StreamEvent.updates ev]) =
      genStep inp rid (messageGenerator inp rid es₀) (StreamEvent.updates ev) := by
    unfold messageGenerator
    rw [List.foldl_append, List.foldl_cons, List.foldl_nil]
  rw [hsplit]
  generalize messageGenerator inp rid es₀ = g
  have hfold : ∀ g' : GenState,
      ∃ pre, ((nodeMessagesAll ev).foldl (processMessage inp rid) g').units =
        pre ++ [StreamUnit.message ⟨MsgType.ai, c, [], "", rid, ""⟩] := by
    intro g'
    rw [hms, List.foldl_append, List.foldl_cons, List.foldl_nil]
    exact ⟨_, processMessage_ai_units inp rid _ c []⟩
  cases ev with
  | nil =>
    exact hfold g
  | cons p ev' =>
    obtain ⟨n, u0⟩ := p
    simp only [genStep]
    split
    · exact hfold _
    · exact hfold _

theorem stepToken_fields (st : FoldState) (s : String) :
    (stepToken st s).transcript = st.transcript ∧
    (stepToken st s).halted = st.halted ∧
    (stepToken st s).stopped = st.stopped ∧
    (stepToken st s).pendingCount = st.pendingCount := by
  unfold stepToken
  split <;> exact ⟨rfl, rfl, rfl, rfl⟩

theorem aiAppend_fields (isNew : Bool) (st : FoldState) (m : ChatMessage) :
    (aiAppend isNew st m).halted = st.halted ∧
    (aiAppend isNew st m).stopped = st.stopped ∧
    (aiAppend isNew st m).pendingCount = st.pendingCount := by
  unfold aiAppend
  split
  all_goals try split
  all_goals exact ⟨rfl, rfl, rfl⟩

theorem aiMarkLast_fields (st : FoldState) :
    (aiMarkLast st).transcript = st.transcript ∧
    (aiMarkLast st).halted = st.halted ∧
    (aiMarkLast st).stopped = st.stopped ∧
    (aiMarkLast st).pendingCount = st.pendingCount := by
  unfold aiMarkLast
  split <;> exact ⟨rfl, rfl, rfl, rfl⟩

theorem aiCloseStream_fields (st : FoldState) (m : ChatMessage) :
    (aiCloseStream st m).transcript = st.transcript ∧
    (aiCloseStream st m).halted = st.halted ∧
    (aiCloseStream st m).stopped = st.stopped ∧
    (aiCloseStream st m).pendingCount = st.pendingCount := by
  unfold aiCloseStream
  split
  all_goals try split
  all_goals exact ⟨rfl, rfl, rfl, rfl⟩

theorem aiOpenCalls_fields (st : FoldState) (m : ChatMessage) :
    (aiOpenCalls st m).transcript = st.transcript ∧
    (aiOpenCalls st m).halted = st.halted ∧
    (aiOpenCalls st m).stopped = st.stopped := by
  unfold aiOpenCalls
  split <;> exact ⟨rfl, rfl, rfl⟩

theorem aiOpenCalls_pending_nil (st : FoldState) (m : ChatMessage)
    (h : m.tool_calls = []) : (aiOpenCalls st m).pendingCount = st.pendingCount := by
  unfold aiOpenCalls
  rw [if_pos h]

theorem aiOpenCalls_pending_calls (st : FoldState) (m : ChatMessage)
    (h : m.tool_calls ≠ []) :
    (aiOpenCalls st m).pendingCount = (dedupIds m.tool_calls).length := by
  unfold aiOpenCalls
  rw [if_neg h]

theorem stepAI_fields (isNew : Bool) (st : FoldState) (m : ChatMessage) :
    (stepAI isNew st m).halted = st.halted ∧
    (stepAI isNew st m).stopped = st.stopped := by
  unfold stepAI
  obtain ⟨h1h, h1s, -⟩ := aiAppend_fields isNew st m
  obtain ⟨-, h2h, h2s, -⟩ := aiMarkLast_fields (aiAppend isNew st m)
  obtain ⟨-, h3h, h3s, -⟩ :=
    aiCloseStream_fields (aiMarkLast (aiAppend isNew st m)) m
  obtain ⟨-, h4h, h4s⟩ :=
    aiOpenCalls_fields (aiCloseStream (aiMarkLast (aiAppend isNew st m)) m) m
  constructor
  · rw [h4h, h3h, h2h, h1h]
  · rw [h4s, h3s, h2s, h1s]

theorem stepAI_pending_nil (isNew : Bool) (st : FoldState) (m : ChatMessage)
    (h : m.tool_calls = []) :
    (stepAI isNew st m).pendingCount = st.pendingCount := by
  unfold stepAI
  obtain ⟨-, -, h1p⟩ := aiAppend_fields isNew st m
  obtain ⟨-, -, -, h2p⟩ := aiMarkLast_fields (aiAppend isNew st m)
  obtain ⟨-, -, -, h3p⟩ :=
    aiCloseStream_fields (aiMarkLast (aiAppend isNew st m)) m
  rw [aiOpenCalls_pending_nil _ _ h, h3p, h2p, h1p]

theorem stepAI_pending_calls (isNew : Bool) (st : FoldState) (m : ChatMessage)
    (h : m.tool_calls ≠ []) :
    (stepAI isNew st m).pendingCount = (dedupIds m.tool_calls).length := by
  unfold stepAI
  rw [aiOpenCalls_pending_calls _ _ h]

theorem toolAppendStandalone_fields (isNew : Bool) (st : FoldState)
    (m : ChatMessage) :
    (toolAppendStandalone isNew st m).halted = st.halted ∧
    (toolAppendStandalone isNew st m).stopped = st.stopped ∧
    (toolAppendStandalone isNew st m).pendingCount = st.pendingCount := by
  unfold toolAppendStandalone
  split
  all_goals try split
  all_goals try split
  all_goals exact ⟨rfl, rfl, rfl⟩

theorem toolFlagStandalone_fields (st : FoldState) (m : ChatMessage) :
    (toolFlagStandalone st m).halted = st.halted ∧
    (toolFlagStandalone st m).stopped = st.stopped ∧
    (toolFlagStandalone st m).pendingCount = st.pendingCount := by
  unfold toolFlagStandalone
  split <;> exact ⟨rfl, rfl, rfl⟩

theorem stepTool_fields (isNew : Bool) (st : FoldState) (m : ChatMessage) :
    (stepTool isNew st m).halted = st.halted ∧
    (stepTool isNew st m).stopped = st.stopped ∧
    (stepTool isNew st m).pendingCount = st.pendingCount := by
  unfold stepTool
  obtain ⟨h1h, h1s, h1p⟩ := toolAppendStandalone_fields isNew st m
  obtain ⟨h2h, h2s, h2p⟩ :=
    toolFlagStandalone_fields (toolAppendStandalone isNew st m) m
  exact ⟨by rw [h2h, h1h], by rw [h2s, h1s], by rw [h2p, h1p]⟩

theorem customAppend_fields (isNew : Bool) (st : FoldState) (m : ChatMessage) :
    (customAppend isNew st m).halted = st.halted ∧
    (customAppend isNew st m).stopped = st.stopped ∧
    (customAppend isNew st m).pendingCount = st.pendingCount := by
  unfold customAppend
  split
  all_goals try split
  all_goals exact ⟨rfl, rfl, rfl⟩

theorem customMarkLast_fields (st : FoldState) :
    (customMarkLast st).halted = st.halted ∧
    (customMarkLast st).stopped = st.stopped ∧
    (customMarkLast st).pendingCount = st.pendingCount := by
  unfold customMarkLast
  split <;> exact ⟨rfl, rfl, rfl⟩

theorem stepCustom_fields (tv : String → Bool) (isNew : Bool) (st : FoldState)
    (m : ChatMessage) (hv : tv m.custom_data = true) :
    (stepCustom tv isNew st m).halted = st.halted ∧
    (stepCustom tv isNew st m).stopped = st.stopped ∧
    (stepCustom tv isNew st m).pendingCount = st.pendingCount := by
  unfold stepCustom
  rw [if_pos hv]
  obtain ⟨h1h, h1s, h1p⟩ := customAppend_fields isNew st m
  obtain ⟨h2h, h2s, h2p⟩ := customMarkLast_fields (customAppend isNew st m)
  exact ⟨by rw [h2h, h1h], by rw [h2s, h1s], by rw [h2p, h1p]⟩

theorem trackSeen_pendingCount (st : FoldState) (tm : ChatMessage) :
    (trackSeen st tm).pendingCount = st.pendingCount := by
  unfold trackSeen
  split <;> rfl

theorem toolAppendPulled_pendingCount (isNew : Bool) (st : FoldState)
    (tm : ChatMessage) :
    (toolAppendPulled isNew st tm).pendingCount = st.pendingCount := by
  unfold toolAppendPulled
  split
  all_goals try split
  all_goals rfl

theorem attachResult_fields (st : FoldState) (tm : ChatMessage) :
    (attachResult st tm).halted = st.halted ∧
    (attachResult st tm).stopped = st.stopped ∧
    (attachResult st tm).pendingCount = st.pendingCount := by
  unfold attachResult
  split
  all_goals try split
  all_goals exact ⟨rfl, rfl, rfl⟩

theorem consumeOne_fields (isNew : Bool) (st : FoldState) (tm : ChatMessage) :
    (consumeOne isNew st tm).halted = st.halted ∧
    (consumeOne isNew st tm).stopped = st.stopped ∧
    (consumeOne isNew st tm).pendingCount = st.pendingCount := by
  unfold consumeOne
  obtain ⟨-, -, -, h1h, h1s⟩ := trackSeen_fields st tm
  have h1p := trackSeen_pendingCount st tm
  obtain ⟨-, -, -, h2h, h2s⟩ := toolAppendPulled_fields isNew (trackSeen st tm) tm
  have h2p := toolAppendPulled_pendingCount isNew (trackSeen st tm) tm
  obtain ⟨h3h, h3s, h3p⟩ :=
    attachResult_fields (toolAppendPulled isNew (trackSeen st tm) tm) tm
  exact ⟨by rw [h3h, h2h, h1h], by rw [h3s, h2s, h1s], by rw [h3p, h2p, h1p]⟩

theorem countAI_append_nonai (c : String) (ts : List ChatMessage)
    (m : ChatMessage) (h : m.type ≠ MsgType.ai) :
    countAI c (ts ++ [m]) = countAI c ts := by
  simp [countAI, List.countP_append, List.countP_cons, h]

theorem countAI_append_self (c : String) (ts : List ChatMessage)
    (m : ChatMessage) (hty : m.type = MsgType.ai) (hco : m.content = c) :
    countAI c (ts ++ [m]) = countAI c ts + 1 := by
  simp [countAI, List.countP_append, List.countP_cons, hty, hco]

theorem countAI_append_other (c : String) (ts : List ChatMessage)
    (m : ChatMessage) (hco : m.content ≠ c) :
    countAI c (ts ++ [m]) = countAI c ts := by
  simp only [countAI, List.countP_append, List.countP_cons, List.countP_nil]
  have : decide (m.type = MsgType.ai ∧ m.content = c) = false := by
    simp [hco]
  rw [this]
  simp

theorem countAI_zero_of_not_dup {c : String} {ts : List ChatMessage}
    {m : ChatMessage} (hc : c ≠ "") (hmc : m.content = c)
    (hd : aiDuplicate ts m = false) : countAI c ts = 0 := by
  rw [countAI, List.countP_eq_zero]
  intro e he hpe
  rw [decide_eq_true_eq] at hpe
  obtain ⟨hty, hco⟩ := hpe
  have hdup : aiDuplicate ts m = true := by
    simp only [aiDuplicate, List.any_eq_true, decide_eq_true_eq]
    exact ⟨e, he, hty, Or.inl ⟨by rw [hmc]; exact hc, by rw [hco, hmc]⟩⟩
  rw [hd] at hdup
  cases hdup

theorem countAI_pos_of_mem {c : String} {ts : List ChatMessage}
    {e : ChatMessage} (he : e ∈ ts) (hty : e.type = MsgType.ai)
    (hco : e.content = c) : 1 ≤ countAI c ts := by
  rw [countAI]
  refine List.countP_pos_iff.2 ⟨e, he, ?_⟩
  simp [hty, hco]

theorem aiAppend_count_le (c : String) (isNew : Bool) (st : FoldState)
    (m : ChatMessage) (hc : c ≠ "") (h1 : countAI c st.transcript ≤ 1) :
    countAI c (aiAppend isNew st m).transcript ≤ 1 := by
  unfold aiAppend
  split
  all_goals try split
  · exact h1
  · rename_i hnd
    show countAI c (st.transcript ++ [m]) ≤ 1
    by_cases hmc : m.content = c
    · have hzero : countAI c st.transcript = 0 :=
        countAI_zero_of_not_dup hc hmc (by simpa using hnd)
      by_cases hty : m.type = MsgType.ai
      · rw [countAI_append_self c _ m hty hmc, hzero]
      · rw [countAI_append_nonai c _ m hty, hzero]
        omega
    · rw [countAI_append_other c _ m hmc]
      exact h1
  · exact h1

theorem stepAI_count_le (c : String) (isNew : Bool) (st : FoldState)
    (m : ChatMessage) (hc : c ≠ "") (h1 : countAI c st.transcript ≤ 1) :
    countAI c (stepAI isNew st m).transcript ≤ 1 := by
  unfold stepAI
  rw [aiOpenCalls_transcript, aiCloseStream_transcript, aiMarkLast_transcript]
  exact aiAppend_count_le c isNew st m hc h1

theorem toolAppendStandalone_transcript_shape (isNew : Bool) (st : FoldState)
    (m : ChatMessage) :
    (toolAppendStandalone isNew st m).transcript = st.transcript ∨
    (toolAppendStandalone isNew st m).transcript = st.transcript ++ [m] := by
  unfold toolAppendStandalone
  split
  all_goals try split
  all_goals try split
  all_goals first | exact Or.inl rfl | exact Or.inr rfl

theorem toolAppendPulled_transcript_shape (isNew : Bool) (st : FoldState)
    (tm : ChatMessage) :
    (toolAppendPulled isNew st tm).transcript = st.transcript ∨
    (toolAppendPulled isNew st tm).transcript = st.transcript ++ [tm] := by
  unfold toolAppendPulled
  split
  all_goals try split
  all_goals first | exact Or.inl rfl | exact Or.inr rfl

theorem customAppend_transcript_shape (isNew : Bool) (st : FoldState)
    (m : ChatMessage) :
    (customAppend isNew st m).transcript = st.transcript ∨
    (customAppend isNew st m).transcript = st.transcript ++ [m] := by
  unfold customAppend
  split
  all_goals try split
  all_goals first | exact Or.inl rfl | exact Or.inr rfl

theorem consumeOne_count_eq (c : String) (isNew : Bool) (st : FoldState)
    (tm : ChatMessage) (htool : tm.type ≠ MsgType.ai) :
    countAI c (consumeOne isNew st tm).transcript = countAI c st.transcript := by
  unfold consumeOne
  rw [attachResult_transcript]
  rcases toolAppendPulled_transcript_shape isNew (trackSeen st tm) tm with h | h
  · rw [h, trackSeen_transcript]
  · rw [h, countAI_append_nonai c _ tm htool, trackSeen_transcript]

theorem stepTool_count_eq (c : String) (isNew : Bool) (st : FoldState)
    (m : ChatMessage) (htool : m.type ≠ MsgType.ai) :
    countAI c (stepTool isNew st m).transcript = countAI c st.transcript := by
  unfold stepTool
  rw [toolFlagStandalone_transcript]
  rcases toolAppendStandalone_transcript_shape isNew st m with h | h
  · rw [h]
  · rw [h, countAI_append_nonai c _ m htool]

theorem stepCustom_count_eq (c : String) (tv : String → Bool) (isNew : Bool)
    (st : FoldState) (m : ChatMessage) (hcu : m.type ≠ MsgType.ai) :
    countAI c (stepCustom tv isNew st m).transcript =
      countAI c st.transcript := by
  unfold stepCustom
  split
  · rw [customMarkLast_transcript]
    rcases customAppend_transcript_shape isNew st m with h | h
    · rw [h]
    · rw [h, countAI_append_nonai c _ m hcu]
  · rfl

theorem foldStep_inert (tv : String → Bool) (isNew : Bool) (st : FoldState)
    (u : StreamUnit) (h : st.halted = true ∨ st.stopped = true) :
    foldStep tv isNew st u = st := by
  unfold foldStep
  rw [if_pos h]

theorem foldStep_consuming (tv : String → Bool) (isNew : Bool) (st : FoldState)
    (u : StreamUnit) (hh : st.halted = false) (hs : st.stopped = false)
    (hp : st.pendingCount ≠ 0) :
    foldStep tv isNew st u = consumeStep isNew st u := by
  unfold foldStep
  rw [if_neg (by simp [hh, hs]), if_pos hp]

theorem foldStep_normal_token (tv : String → Bool) (isNew : Bool)
    (st : FoldState) (s : String) (hh : st.halted = false)
    (hs : st.stopped = false) (hp : st.pendingCount = 0) :
    foldStep tv isNew st (StreamUnit.token s) =
      if s = "" then { st with stopped := true } else stepToken st s := by
  unfold foldStep
  rw [if_neg (by simp [hh, hs]), if_neg (by simp [hp])]

theorem foldStep_normal_error (tv : String → Bool) (isNew : Bool)
    (st : FoldState) (hh : st.halted = false) (hs : st.stopped = false)
    (hp : st.pendingCount = 0) :
    foldStep tv isNew st StreamUnit.error = { st with halted := true } := by
  unfold foldStep
  rw [if_neg (by simp [hh, hs]), if_neg (by simp [hp])]

theorem foldStep_normal_message (tv : String → Bool) (isNew : Bool)
    (st : FoldState) (m : ChatMessage) (hh : st.halted = false)
    (hs : st.stopped = false) (hp : st.pendingCount = 0) :
    foldStep tv isNew st (StreamUnit.message m) =
      (match m.type with
       | MsgType.human => { st with lastMessageType := "human" }
       | MsgType.ai => stepAI isNew st m
       | MsgType.tool => stepTool isNew st m
       | MsgType.custom => stepCustom tv isNew st m) := by
  unfold foldStep
  rw [if_neg (by simp [hh, hs]), if_neg (by simp [hp])]

theorem foldStep_count_le (c : String) (tv : String → Bool) (isNew : Bool)
    (st : FoldState) (u : StreamUnit) (hc : c ≠ "")
    (h1 : countAI c st.transcript ≤ 1) :
    countAI c (foldStep tv isNew st u).transcript ≤ 1 := by
  by_cases hhs : st.halted = true ∨ st.stopped = true
  · rw [foldStep_inert tv isNew st u hhs]
    exact h1
  have hh : st.halted = false := by
    cases hb : st.halted with
    | false => rfl
    | true => exact absurd (Or.inl hb) hhs
  have hs : st.stopped = false := by
    cases hb : st.stopped with
    | false => rfl
    | true => exact absurd (Or.inr hb) hhs
  by_cases hp : st.pendingCount = 0
  · cases u with
    | error =>
      rw [foldStep_normal_error tv isNew st hh hs hp]
      exact h1
    | token s =>
      rw [foldStep_normal_token tv isNew st s hh hs hp]
      split
      · exact h1
      · obtain ⟨ht, -⟩ := stepToken_fields st s
        show countAI c (stepToken st s).transcript ≤ 1
        rw [ht]
        exact h1
    | message m =>
      rw [foldStep_normal_message tv isNew st m hh hs hp]
      cases hmt : m.type with
      | human => exact h1
      | ai => exact stepAI_count_le c isNew st m hc h1
      | tool =>
        rw [stepTool_count_eq c isNew st m (by rw [hmt]; decide)]
        exact h1
      | custom =>
        rw [stepCustom_count_eq c tv isNew st m (by rw [hmt]; decide)]
        exact h1
  · rw [foldStep_consuming tv isNew st u hh hs hp]
    cases u with
    | token s => exact h1
    | error => exact h1
    | message tm =>
      simp only [consumeStep]
      split
      · rename_i htool
        show countAI c (consumeOne isNew st tm).transcript ≤ 1
        rw [consumeOne_count_eq c isNew st tm (by rw [htool]; decide)]
        exact h1
      · exact h1

theorem foldl_count_le (c : String) (tv : String → Bool) (isNew : Bool)
    (units : List StreamUnit) (hc : c ≠ "") :
    ∀ st : FoldState, countAI c st.transcript ≤ 1 →
      countAI c ((units.foldl (foldStep tv isNew)) st).transcript ≤ 1 := by
  induction units with
  | nil => exact fun st h1 => h1
  | cons u us ih =>
    intro st h1
    exact ih _ (foldStep_count_le c tv isNew st u hc h1)

theorem finalize_count_le (c : String) (isNew : Bool) (st : FoldState)
    (hc : c ≠ "") (h1 : countAI c st.transcript ≤ 1) :
    countAI c (finalizeStream isNew st).transcript ≤ 1 := by
  unfold finalizeStream
  split
  · split
    · exact h1
    · rename_i hany
      show countAI c (st.transcript ++
        [{ type := MsgType.ai, content := st.streamingContent }]) ≤ 1
      by_cases hsc : st.streamingContent = c
      · have hzero : countAI c st.transcript = 0 := by
          rw [countAI, List.countP_eq_zero]
          intro e he hpe
          rw [decide_eq_true_eq] at hpe
          refine hany ?_
          refine List.any_eq_true.2 ⟨e, he, ?_⟩
          rw [decide_eq_true_eq]
          rw [hsc]
          exact hpe
        rw [countAI_append_self c _ _ rfl hsc, hzero]
      · rw [countAI_append_other c _ _ (by simpa using hsc)]
        exact h1
  · exact h1

theorem finalize_count_ge (c : String) (isNew : Bool) (st : FoldState) :
    countAI c st.transcript ≤ countAI c (finalizeStream isNew st).transcript := by
  unfold finalizeStream
  split
  · split
    · exact le_refl _
    · show countAI c st.transcript ≤ countAI c (st.transcript ++ _)
      rw [countAI, countAI, List.countP_append]
      omega
  · exact le_refl _

theorem consume_group (tv : String → Bool) (isNew : Bool) :
    ∀ (results : List StreamUnit) (st : FoldState),
      (∀ r ∈ results, ∃ tm, r = StreamUnit.message tm ∧ tm.type = MsgType.tool) →
      st.halted = false → st.stopped = false →
      st.pendingCount = results.length →
      (results.foldl (foldStep tv isNew) st).halted = false ∧
      (results.foldl (foldStep tv isNew) st).stopped = false ∧
      (results.foldl (foldStep tv isNew) st).pendingCount = 0 := by
  intro results
  induction results with
  | nil =>
    intro st _ hh hs hp
    exact ⟨hh, hs, hp⟩
  | cons r rs ih =>
    intro st hall hh hs hp
    obtain ⟨tm, rfl, htool⟩ := hall r (List.mem_cons_self r rs)
    have hpne : st.pendingCount ≠ 0 := by
      rw [hp]
      simp
    rw [List.foldl_cons,
      foldStep_consuming tv isNew st (StreamUnit.message tm) hh hs hpne]
    have hstep : consumeStep isNew st (StreamUnit.message tm) =
        { consumeOne isNew st tm with
            pendingCount := (consumeOne isNew st tm).pendingCount - 1 } := by
      simp only [consumeStep, htool]
      rfl
    rw [hstep]
    obtain ⟨hch, hcs, hcp⟩ := consumeOne_fields isNew st tm
    refine ih _ (fun r hr => hall r (List.mem_cons_of_mem _ hr)) ?_ ?_ ?_
    · show (consumeOne isNew st tm).halted = false
      rw [hch, hh]
    · show (consumeOne isNew st tm).stopped = false
      rw [hcs, hs]
    · show (consumeOne isNew st tm).pendingCount - 1 = rs.length
      rw [hcp, hp]
      simp

theorem WF_foldl_clean (tv : String → Bool) {units : List StreamUnit}
    (h : WFUnits tv units) :
    ∀ st : FoldState, st.halted = false → st.stopped = false →
      st.pendingCount = 0 →
      (units.foldl (foldStep tv true) st).halted = false ∧
      (units.foldl (foldStep tv true) st).stopped = false ∧
      (units.foldl (foldStep tv true) st).pendingCount = 0 := by
  induction h with
  | nil => exact fun st hh hs hp => ⟨hh, hs, hp⟩
  | @tok s rest hs0 hw ih =>
    intro st hh hs hp
    rw [List.foldl_cons, foldStep_normal_token tv true st s hh hs hp,
      if_neg hs0]
    obtain ⟨-, h1, h2, h3⟩ := stepToken_fields st s
    exact ih _ (by rw [h1, hh]) (by rw [h2, hs]) (by rw [h3, hp])
  | @human m rest hty hw ih =>
    intro st hh hs hp
    rw [List.foldl_cons, foldStep_normal_message tv true st m hh hs hp, hty]
    exact ih _ hh hs hp
  | @tool m rest hty hw ih =>
    intro st hh hs hp
    rw [List.foldl_cons, foldStep_normal_message tv true st m hh hs hp, hty]
    obtain ⟨h1, h2, h3⟩ := stepTool_fields true st m
    exact ih _ (by rw [h1, hh]) (by rw [h2, hs]) (by rw [h3, hp])
  | @custom m rest hty hv hw ih =>
    intro st hh hs hp
    rw [List.foldl_cons, foldStep_normal_message tv true st m hh hs hp, hty]
    obtain ⟨h1, h2, h3⟩ := stepCustom_fields tv true st m hv
    exact ih _ (by rw [h1, hh]) (by rw [h2, hs]) (by rw [h3, hp])
  | @aiNoCalls m rest hty hcalls hw ih =>
    intro st hh hs hp
    rw [List.foldl_cons, foldStep_normal_message tv true st m hh hs hp, hty]
    obtain ⟨h1, h2⟩ := stepAI_fields true st m
    exact ih _ (by rw [h1, hh]) (by rw [h2, hs])
      (by rw [stepAI_pending_nil true st m hcalls, hp])
  | @aiCalls m results rest hty hcalls hlen hall hw ih =>
    intro st hh hs hp
    rw [show (StreamUnit.message m :: (results ++ rest)) =
        ((StreamUnit.message m :: results) ++ rest) from rfl,
      List.foldl_append, List.foldl_cons,
      foldStep_normal_message tv true st m hh hs hp, hty]
    obtain ⟨h1, h2⟩ := stepAI_fields true st m
    have hgrp := consume_group tv true results (stepAI true st m) hall
      (by rw [h1, hh]) (by rw [h2, hs])
      (by rw [stepAI_pending_calls true st m hcalls, hlen])
    exact ih _ hgrp.1 hgrp.2.1 hgrp.2.2

theorem foldStep_hit (c : String) (tv : String → Bool) (st : FoldState)
    (m : ChatMessage) (hc : c ≠ "") (hty : m.type = MsgType.ai)
    (hco : m.content = c) (hcalls : m.tool_calls = [])
    (hh : st.halted = false) (hs : st.stopped = false)
    (hp : st.pendingCount = 0) :
    1 ≤ countAI c (foldStep tv true st (StreamUnit.message m)).transcript := by
  rw [foldStep_normal_message tv true st m hh hs hp, hty]
  show 1 ≤ countAI c (stepAI true st m).transcript
  unfold stepAI
  rw [aiOpenCalls_transcript, aiCloseStream_transcript, aiMarkLast_transcript]
  unfold aiAppend
  rw [if_pos ⟨rfl, Or.inl (by rw [hco]; exact hc)⟩]
  split
  · rename_i hdup
    simp only [aiDuplicate, List.any_eq_true, decide_eq_true_eq] at hdup
    obtain ⟨e, he, hety, hor⟩ := hdup
    rcases hor with ⟨-, heco⟩ | ⟨hne, -⟩
    · exact countAI_pos_of_mem he hety (by rw [heco, hco])
    · exact absurd hcalls hne
  · show 1 ≤ countAI c (st.transcript ++ [m])
    rw [countAI_append_self c _ m hty hco]
    omega

/-- The translator raises on an expert node whose update carries an empty
message list (IndexError at service.py line 256, outside any `try`): such a
stream aborts before delivering anything, and `eventOk` rejects it, keeping
those turns outside the completed-stream theorems below. -/
theorem eventOk_rejects_empty_expert :
    eventOk (StreamEvent.updates
      [("math_expert", NodeUpdate.state (some [])),
       ("model", NodeUpdate.state (some [LCMessage.ai "4" []]))]) = false := by
  decide

/-- C1: for any turn whose underlying agent execution completes normally
with a non-empty final AI message and no pending tool calls (the last
`updates` event's extracted messages end with `AIMessage c` carrying no tool
calls, and no event makes the translator itself raise — a turn whose stream
aborts mid-translation, e.g. on an expert node with an empty message list,
does not complete normally and delivers nothing, so it is excluded by
`eventOk`), after the client folds the translated stream — whose earlier
units are well-formed in the sense of §4.3 — exactly one AI message with
that content appears in the final transcript, whether or not token
streaming (`stream_tokens`, part of the arbitrary `inp`) was enabled for
the turn. -/
theorem claim_c1_exactly_one_final_ai (inp : StreamInput) (rid c : String)
    (es₀ : List StreamEvent) (ev : List (String × NodeUpdate))
    (ms₀ : List LCMessage) (tv : String → Bool)
    (transcript₀ : List ChatMessage)
    (hc : c ≠ "")
    (hok : ((es₀ ++ [StreamEvent.updates ev]).all eventOk) = true)
    (hms : nodeMessagesAll ev = ms₀ ++ [LCMessage.ai c []])
    (hwf : WFUnits tv
      ((messageGenerator inp rid
        (es₀ ++ [StreamEvent.updates ev])).units.dropLast))
    (h0 : countAI c transcript₀ = 0) :
    countAI c (drawMessages tv true transcript₀
      (messageGenerator inp rid
        (es₀ ++ [StreamEvent.updates ev])).units).transcript = 1 := by
  obtain ⟨pre, hunits⟩ := generator_last_ai inp rid c es₀ ev ms₀ hms
  have hdrop : (messageGenerator inp rid
      (es₀ ++ [StreamEvent.updates ev])).units.dropLast = pre := by
    rw [hunits]
    simp
  rw [hdrop] at hwf
  have hst0 : countAI c (initFoldState transcript₀).transcript ≤ 1 := by
    show countAI c transcript₀ ≤ 1
    rw [h0]
    omega
  obtain ⟨hclh, hcls, hclp⟩ :=
    WF_foldl_clean tv hwf (initFoldState transcript₀) rfl rfl rfl
  have hcount1 : countAI c
      (pre.foldl (foldStep tv true) (initFoldState transcript₀)).transcript ≤ 1 :=
    foldl_count_le c tv true pre hc _ hst0
  have hhit : 1 ≤ countAI c
      (foldStep tv true (pre.foldl (foldStep tv true) (initFoldState transcript₀))
        (StreamUnit.message ⟨MsgType.ai, c, [], "", rid, ""⟩)).transcript :=
    foldStep_hit c tv _ _ hc rfl rfl rfl hclh hcls hclp
  have hle2 : countAI c
      (foldStep tv true (pre.foldl (foldStep tv true) (initFoldState transcript₀))
        (StreamUnit.message ⟨MsgType.ai, c, [], "", rid, ""⟩)).transcript ≤ 1 :=
    foldStep_count_le c tv true _ _ hc hcount1
  have heq2 : countAI c
      (foldStep tv true (pre.foldl (foldStep tv true) (initFoldState transcript₀))
        (StreamUnit.message ⟨MsgType.ai, c, [], "", rid, ""⟩)).transcript = 1 :=
    le_antisymm hle2 hhit
  have hh2 : (foldStep tv true
      (pre.foldl (foldStep tv true) (initFoldState transcript₀))
      (StreamUnit.message ⟨MsgType.ai, c, [], "", rid, ""⟩)).halted = false := by
    rw [foldStep_normal_message tv true _ _ hclh hcls hclp]
    show (stepAI true _ _).halted = false
    rw [(stepAI_fields true _ _).1, hclh]
  have hfold : (messageGenerator inp rid
      (es₀ ++ [StreamEvent.updates ev])).units.foldl (foldStep tv true)
        (initFoldState transcript₀) =
      foldStep tv true (pre.foldl (foldStep tv true) (initFoldState transcript₀))
        (StreamUnit.message ⟨MsgType.ai, c, [], "", rid, ""⟩) := by
    rw [hunits, List.foldl_append, List.foldl_cons, List.foldl_nil]
  simp only [drawMessages, hfold, hh2]
  rw [if_neg (by simp)]
  have hYc : ∀ Y : FoldState, countAI c Y.transcript = 1 →
      countAI c (finalizeStream true Y).transcript = 1 := by
    intro Y hY
    have hge := finalize_count_ge c true Y
    rw [hY] at hge
    exact le_antisymm (finalize_count_le c true Y hc (le_of_eq hY)) hge
  apply hYc
  split
  · exact heq2
  · exact heq2

/-- Witness for C1 at a concrete streamed turn: a token `"4"` followed by
the final update carrying `AIMessage "4"`, folded into a transcript that
starts with only the submitted human message, yields exactly one AI entry
with content `"4"`. -/
theorem claim_c1_witness :
    countAI "4"
      (drawMessages (fun _ => true) true
        [⟨MsgType.human, "2+2?", [], "", "", ""⟩]
        (messageGenerator { message := "2+2?", stream_tokens := true } "r"
          ([StreamEvent.messages ⟨true, "4", []⟩] ++
            [StreamEvent.updates
              [("model", NodeUpdate.state (some [LCMessage.ai "4" []]))]])).units).transcript
      = 1 :=
  claim_c1_exactly_one_final_ai
    { message := "2+2?", stream_tokens := true } "r" "4"
    [StreamEvent.messages ⟨true, "4", []⟩]
    [("model", NodeUpdate.state (some [LCMessage.ai "4" []]))] []
    (fun _ => true) [⟨MsgType.human, "2+2?", [], "", "", ""⟩]
    (by decide) (by decide) rfl
    (by
      have h : (messageGenerator { message := "2+2?", stream_tokens := true } "r"
          ([StreamEvent.messages ⟨true, "4", []⟩] ++
            [StreamEvent.updates
              [("model", NodeUpdate.state (some [LCMessage.ai "4" []]))]])).units.dropLast =
          [StreamUnit.token "4"] := rfl
      rw [h]
      exact WFUnits.tok (by decide) WFUnits.nil)
    rfl

end AgentToolkit
